import Mathlib

/-!
Shallow embedding of the CFF table parser and Type-2 CharString interpreter
of `src/src/cff.rs` (zero-copy CFF glyph outline renderer).

Conventions of the embedding:
* Byte slices are `List Nat`; every byte read is taken `% 256`, mirroring the
  `u8` type of the source.  Multi-byte reads are big-endian as in the source.
* `f32` coordinates are modelled as `ℚ`.  Every claim settled here depends
  only on control flow, stack lengths, emitted-command counts, and exact
  integer-valued arithmetic, never on `f32` rounding.
* `u16`/`u32`/`usize` arithmetic is `Nat` with an explicit `% 2^w` at each
  place where the source's fixed-width type can wrap or truncate.
* Fallible code returns `Except Err`; Rust `&mut` out-parameters (the operand
  stack, the context flags and the drawing sink) are threaded as explicit
  state and returned also on the error path, mirroring the fact that in Rust
  the mutations performed before an `Err` return persist (the sink has
  already observed a prefix of the drawing commands).
* Loops take an explicit `fuel : Nat` so that every definition is a
  computable structural recursion; exhaustion yields the artificial error
  `Err.OutOfFuel` (unreachable for sufficiently large fuel, and every
  universally quantified theorem below is stated so that it holds for every
  fuel).
-/

namespace Cff

/-- Errors of the CFF module, `CFFError` in `src/src/cff.rs` (the CFF2-only
variants are never produced by the code under verification and are omitted). -/
inductive CFFError where
  | NoCharStrings
  | InvalidOperand
  | InvalidOperator
  | UnsupportedOperator
  | InvalidFloat
  | InvalidOffsetSize
  | NestingLimitReached
  | ArgumentsStackLimitReached
  | InvalidArgumentsStackLength
deriving DecidableEq

/-- The crate-level error type as seen from the CFF module: `Error::NoGlyph`,
`Error::UnsupportedTableVersion`, the generic out-of-bounds read error of the
byte reader (spec section 7: "A generic read error for out-of-bounds byte
access"; the reader itself lives in the crate's parser module), and wrapped
`CFFError`s.  `OutOfFuel` is an artifact of the fuel-based embedding only. -/
inductive Err where
  | UnsupportedTableVersion (major : Nat)
  | NoGlyph
  | SliceOutOfBounds
  | CFF (e : CFFError)
  | OutOfFuel
deriving DecidableEq

instance {ε α : Type} [DecidableEq ε] [DecidableEq α] : DecidableEq (Except ε α) := fun x y =>
  match x, y with
  | .ok a, .ok b =>
    if h : a = b then .isTrue (by rw [h]) else .isFalse (by intro hc; cases hc; exact h rfl)
  | .error a, .error b =>
    if h : a = b then .isTrue (by rw [h]) else .isFalse (by intro hc; cases hc; exact h rfl)
  | .ok _, .error _ => .isFalse (by intro hc; cases hc)
  | .error _, .ok _ => .isFalse (by intro hc; cases hc)

/-- Big-endian value of a byte list (each byte taken mod 256, mirroring `u8`). -/
def beVal (bytes : List Nat) : Nat :=
  bytes.foldl (fun a b => a * 256 + b % 256) 0

/-- Bounded slicing `data.try_slice(start..stop)` (crate parser module;
modelled from the spec, section 4.1: bounded slicing, bounds-checked). -/
def trySlice (data : List Nat) (start stop : Nat) : Except Err (List Nat) :=
  if start ≤ stop ∧ stop ≤ data.length then
    .ok ((data.drop start).take (stop - start))
  else
    .error .SliceOutOfBounds

/-- The byte reader `Stream` of the crate's parser module (modelled from the
spec, section 4.1): a cursor over a borrowed slice; every read is fallible
and bounds-checked; skipping just advances the cursor. -/
structure Stream where
  data : List Nat
  offset : Nat
deriving DecidableEq

def Stream.at_end (s : Stream) : Bool :=
  s.data.length ≤ s.offset

def Stream.readU8 (s : Stream) : Except Err (Nat × Stream) :=
  if s.offset < s.data.length then
    .ok (s.data.getD s.offset 0 % 256, { s with offset := s.offset + 1 })
  else
    .error .SliceOutOfBounds

def Stream.readU16 (s : Stream) : Except Err (Nat × Stream) := do
  let (b0, s) ← s.readU8
  let (b1, s) ← s.readU8
  .ok (b0 * 256 + b1, s)

def Stream.readU32 (s : Stream) : Except Err (Nat × Stream) := do
  let (b0, s) ← s.readU16
  let (b1, s) ← s.readU16
  .ok (b0 * 65536 + b1, s)

/-- `Stream::skip_len` / `Stream::skip::<T>`: advances the cursor without a
bounds check (a later read past the end fails). -/
def Stream.skip_len (s : Stream) (n : Nat) : Stream :=
  { s with offset := s.offset + n }

def Stream.read_bytes (s : Stream) (n : Nat) : Except Err (List Nat × Stream) :=
  if s.offset + n ≤ s.data.length then
    .ok ((s.data.drop s.offset).take n, { s with offset := s.offset + n })
  else
    .error .SliceOutOfBounds

/-- `OffsetSize` (`src/src/cff.rs`): an INDEX offset element width, 1..=4. -/
inductive OffsetSize where
  | Size1
  | Size2
  | Size3
  | Size4
deriving DecidableEq

def OffsetSize.toNat : OffsetSize → Nat
  | .Size1 => 1
  | .Size2 => 2
  | .Size3 => 3
  | .Size4 => 4

/-- `OffsetSize::try_parse` via `Stream::try_read`: one byte, validated to
1..=4, otherwise `InvalidOffsetSize`. -/
def Stream.readOffsetSize (s : Stream) : Except Err (OffsetSize × Stream) := do
  let (b, s) ← s.readU8
  match b with
  | 1 => .ok (.Size1, s)
  | 2 => .ok (.Size2, s)
  | 3 => .ok (.Size3, s)
  | 4 => .ok (.Size4, s)
  | _ => .error (.CFF .InvalidOffsetSize)

/-- `VarOffsets` (`src/src/cff.rs`): a packed array of 1-4 byte offsets. -/
structure VarOffsets where
  data : List Nat
  offset_size : OffsetSize
deriving DecidableEq

/-- `VarOffsets::len`: `self.data.len() as u16 / self.offset_size as u16`;
note the `as u16` truncation of the byte length. -/
def VarOffsets.len (vo : VarOffsets) : Nat :=
  vo.data.length % 65536 / vo.offset_size.toNat

def VarOffsets.is_empty (vo : VarOffsets) : Bool :=
  vo.len = 0

/-- `VarOffsets::get`: decode the `index`-th stored offset; a stored zero
denotes absence; stored offsets are 1-biased so one is subtracted. -/
def VarOffsets.get (vo : VarOffsets) (index : Nat) : Option Nat :=
  if vo.len ≤ index then
    none
  else
    let start := index * vo.offset_size.toNat
    let stop := start + vo.offset_size.toNat
    match trySlice vo.data start stop with
    | .error _ => none
    | .ok bytes =>
      let n := beVal bytes
      if n = 0 then none else some (n - 1)

def VarOffsets.last (vo : VarOffsets) : Option Nat :=
  if !vo.is_empty then vo.get (vo.len - 1) else none

/-- `DataIndex` (`src/src/cff.rs`): a CFF INDEX view, payload plus offsets. -/
structure DataIndex where
  data : List Nat
  offsets : VarOffsets
deriving DecidableEq

/-- `DataIndex::default()`: the empty INDEX view. -/
def DataIndex.default : DataIndex :=
  { data := [], offsets := { data := [], offset_size := .Size1 } }

/-- `DataIndex::len`: number of elements (the offsets array holds one more
entry than there are elements). -/
def DataIndex.len (idx : DataIndex) : Nat :=
  if !idx.offsets.is_empty then idx.offsets.len - 1 else 0

/-- `DataIndex::get`: ordinal access, bounds-checked, with the `u16::MAX`
overflow guard of the source. -/
def DataIndex.get (idx : DataIndex) (index : Nat) : Option (List Nat) :=
  if index = 65535 then
    none
  else if index + 1 < idx.offsets.len then
    match idx.offsets.get index, idx.offsets.get (index + 1) with
    | some start, some stop =>
      match trySlice idx.data start stop with
      | .ok d => some d
      | .error _ => none
    | _, _ => none
  else
    none

/-- `parse_index_impl` (`src/src/cff.rs`): offSize, `(count+1)*offSize` offset
bytes, then `offsets.last()` payload bytes.  No monotonicity validation. -/
def parse_index_impl (count : Nat) (s : Stream) : Except Err (DataIndex × Stream) := do
  let (offset_size, s) ← s.readOffsetSize
  let offsets_len := (count + 1) * offset_size.toNat
  let (od, s) ← s.read_bytes offsets_len
  let offsets : VarOffsets := { data := od, offset_size }
  match offsets.last with
  | some last_offset => do
    let (d, s) ← s.read_bytes last_offset
    .ok ({ data := d, offsets }, s)
  | none =>
    .ok (DataIndex.default, s)

/-- `parse_index` (`src/src/cff.rs`): `count == 0` and `count == 0xFFFF` give
the empty view after consuming only the 2-byte count. -/
def parse_index (s : Stream) : Except Err (DataIndex × Stream) := do
  let (count, s) ← s.readU16
  if count ≠ 0 ∧ count ≠ 65535 then
    parse_index_impl count s
  else
    .ok (DataIndex.default, s)

/-- `skip_index` (`src/src/cff.rs`): same layout as `parse_index`, view
discarded. -/
def skip_index (s : Stream) : Except Err Stream := do
  let (count, s) ← s.readU16
  if count ≠ 0 ∧ count ≠ 65535 then do
    let (offset_size, s) ← s.readOffsetSize
    let offsets_len := (count + 1) * offset_size.toNat
    let (od, s) ← s.read_bytes offsets_len
    let offsets : VarOffsets := { data := od, offset_size }
    match offsets.last with
    | some last_offset => .ok (s.skip_len last_offset)
    | none => .ok s
  else
    .ok s

/-- `Number` (`src/src/cff.rs`): tagged numeric value.  `f32` is modelled
as `ℚ` (see the header note). -/
inductive Number where
  | Integer (n : Int)
  | Float (q : ℚ)
deriving DecidableEq

/-- Truncation of a rational toward zero (the rounding of Rust's `as i32` /
`as i16` float-to-integer casts before saturation). -/
def qTrunc (q : ℚ) : Int :=
  if 0 ≤ q then q.floor else -((-q).floor)

/-- Rust `f32 as i32`: saturating truncation toward zero. -/
def i32Sat (q : ℚ) : Int :=
  if qTrunc q < -2147483648 then -2147483648
  else if 2147483647 < qTrunc q then 2147483647
  else qTrunc q

/-- Rust `f32 as i16`: saturating truncation toward zero. -/
def i16Sat (q : ℚ) : Int :=
  if qTrunc q < -32768 then -32768
  else if 32767 < qTrunc q then 32767
  else qTrunc q

/-- `Number::as_i32` (`src/src/cff.rs`). -/
def Number.as_i32 : Number → Int
  | .Integer n => n
  | .Float q => i32Sat q

/-- Rust `i32 as usize` on a 64-bit target: sign-extend, then reinterpret. -/
def usizeOfI32 (n : Int) : Nat :=
  (n.emod 18446744073709551616).toNat

/-- `parse_float_nibble` (`src/src/cff.rs`): append one ASCII char of the
decimal text of a real number; the buffer is capped at 64 bytes
(`FLOAT_STACK_LEN`).  The buffer is modelled as the list of bytes written
so far (`idx` is its length). -/
def parse_float_nibble (nibble : Nat) (data : List Nat) : Except Err (List Nat) :=
  if data.length = 64 then .error (.CFF .InvalidFloat)
  else if nibble ≤ 9 then .ok (data ++ [48 + nibble])
  else if nibble = 10 then .ok (data ++ [46])
  else if nibble = 11 then .ok (data ++ [69])
  else if nibble = 12 then
    if data.length + 1 = 64 then .error (.CFF .InvalidFloat)
    else .ok (data ++ [69, 45])
  else if nibble = 13 then .error (.CFF .InvalidFloat)
  else if nibble = 14 then .ok (data ++ [45])
  else .error (.CFF .InvalidFloat)

/-- Greedy run of ASCII digits at the head of a byte list. -/
def takeDigits : List Nat → List Nat × List Nat
  | c :: rest =>
    if 48 ≤ c ∧ c ≤ 57 then
      let (ds, r) := takeDigits rest
      (c :: ds, r)
    else ([], c :: rest)
  | [] => ([], [])

def digitsVal (ds : List Nat) : Nat :=
  ds.foldl (fun a c => a * 10 + (c - 48)) 0

/-- Modelled from the spec: the source hands the buffered ASCII text to
`str::parse::<f32>()` (Rust standard library, not part of this repository).
This models its accepted grammar
`sign? (digits [. digits?] | . digits) ([eE] sign? digits)?` with exact
rational semantics (the only divergence from `f32` is rounding/overflow of
the binary float result, on which no claim below depends). -/
def strToRat (cs : List Nat) : Option ℚ :=
  let (neg, cs) := match cs with
    | 45 :: rest => (true, rest)
    | _ => (false, cs)
  let (ip, cs) := takeDigits cs
  let (fp, cs) := match cs with
    | 46 :: rest =>
      let (ds, r) := takeDigits rest
      (some ds, r)
    | _ => (none, cs)
  if ip = [] ∧ (fp = none ∨ fp = some []) then none
  else
    let fl := (fp.getD []).length
    let mant : ℚ := (digitsVal ip : ℚ) + (digitsVal (fp.getD []) : ℚ) / (10 : ℚ) ^ fl
    let signed := if neg then -mant else mant
    match cs with
    | [] => some signed
    | e :: rest =>
      if e = 69 ∨ e = 101 then
        let (eneg, rest) := match rest with
          | 45 :: r => (true, r)
          | 43 :: r => (false, r)
          | _ => (false, rest)
        let (eds, rest) := takeDigits rest
        if eds = [] ∨ rest ≠ [] then none
        else
          let ev := digitsVal eds
          some (if eneg then signed / (10 : ℚ) ^ ev else signed * (10 : ℚ) ^ ev)
      else none

/-- The nibble-collecting loop of `parse_float` (`src/src/cff.rs`): read
bytes, two nibbles each, until an `0xF` nibble terminates the stream. -/
def parseFloatLoop (fuel : Nat) (s : Stream) (acc : List Nat) :
    Except Err (List Nat × Stream) :=
  match fuel with
  | 0 => .error .OutOfFuel
  | fuel + 1 => do
    let (b1, s) ← s.readU8
    let nibble1 := b1 / 16
    let nibble2 := b1 % 16
    if nibble1 = 15 then .ok (acc, s)
    else do
      let acc ← parse_float_nibble nibble1 acc
      if nibble2 = 15 then .ok (acc, s)
      else do
        let acc ← parse_float_nibble nibble2 acc
        parseFloatLoop fuel s acc

/-- `parse_float` (`src/src/cff.rs`). -/
def parse_float (fuel : Nat) (s : Stream) : Except Err (Number × Stream) := do
  let (acc, s) ← parseFloatLoop fuel s []
  match strToRat acc with
  | some q => .ok (.Float q, s)
  | none => .error (.CFF .InvalidFloat)

/-- `parse_number` (`src/src/cff.rs`), Adobe TN #5177 Table 3 operand
encoding.  Note that the `28` arm reads a `u16` and zero-extends it
(`s.read::<u16>()? as i32`). -/
def parse_number (fuel : Nat) (b0 : Nat) (s : Stream) : Except Err (Number × Stream) :=
  if b0 = 28 then do
    let (n, s) ← s.readU16
    .ok (.Integer (n : Int), s)
  else if b0 = 29 then do
    let (n, s) ← s.readU32
    .ok (.Integer (if n < 2147483648 then (n : Int) else (n : Int) - 4294967296), s)
  else if b0 = 30 then
    parse_float fuel s
  else if 32 ≤ b0 ∧ b0 ≤ 246 then
    .ok (.Integer ((b0 : Int) - 139), s)
  else if 247 ≤ b0 ∧ b0 ≤ 250 then do
    let (b1, s) ← s.readU8
    .ok (.Integer (((b0 : Int) - 247) * 256 + (b1 : Int) + 108), s)
  else if 251 ≤ b0 ∧ b0 ≤ 254 then do
    let (b1, s) ← s.readU8
    .ok (.Integer (-((b0 : Int) - 251) * 256 - (b1 : Int) - 108), s)
  else
    .error (.CFF .InvalidOperand)

/-- The float-skipping loop inside `skip_number` (`src/src/cff.rs`). -/
def skipFloatLoop (fuel : Nat) (s : Stream) : Option Stream :=
  match fuel with
  | 0 => none
  | fuel + 1 =>
    if s.at_end then some s
    else
      match s.readU8 with
      | .error _ => none
      | .ok (b1, s) =>
        if b1 / 16 = 15 ∨ b1 % 16 = 15 then some s
        else skipFloatLoop fuel s

/-- `skip_number` (`src/src/cff.rs`): advance past one encoded number
without materializing it. -/
def skip_number (fuel : Nat) (b0 : Nat) (s : Stream) : Option Stream :=
  if b0 = 28 then some (s.skip_len 2)
  else if b0 = 29 then some (s.skip_len 4)
  else if b0 = 30 then skipFloatLoop fuel s
  else if 32 ≤ b0 ∧ b0 ≤ 246 then some s
  else if 247 ≤ b0 ∧ b0 ≤ 254 then some (s.skip_len 1)
  else none

/-- `DictionaryParser` (`src/src/cff.rs`).  The fixed 48-slot operand array
plus `operands_len` is modelled as the list of materialized operands. -/
structure DictionaryParser where
  data : List Nat
  offset : Nat
  operands_offset : Nat
  operands : List Number
deriving DecidableEq

def DictionaryParser.new (data : List Nat) : DictionaryParser :=
  { data, offset := 0, operands_offset := 0, operands := [] }

/-- The operand-skipping scan loop of `DictionaryParser::parse_next`:
returns the next operator value (two-byte operators as `1200 + second`)
and the stream position after it. -/
def parseNextLoop (fuel : Nat) (s : Stream) : Option (Nat × Stream) :=
  match fuel with
  | 0 => none
  | fuel + 1 =>
    if s.at_end then none
    else
      match s.readU8 with
      | .error _ => none
      | .ok (b, s) =>
        if b ≤ 21 then
          if b = 12 then
            match s.readU8 with
            | .error _ => none
            | .ok (b2, s) => some (1200 + b2, s)
          else some (b, s)
        else
          match skip_number fuel b s with
          | none => none
          | some s => parseNextLoop fuel s

/-- `DictionaryParser::parse_next` (`src/src/cff.rs`): record where the
operand run began, scan forward to the next operator.  The operator value
(`Operator(u16)` in the source) is a plain `Nat`. -/
def DictionaryParser.parse_next (fuel : Nat) (p : DictionaryParser) :
    Option (Nat × DictionaryParser) :=
  match parseNextLoop fuel ⟨p.data, p.offset⟩ with
  | none => none
  | some (op, s) =>
    some (op, { p with offset := s.offset, operands_offset := p.offset })

/-- The materializing loop of `DictionaryParser::parse_operands`: decode
numbers until an operator byte, the end of the slice, or 48 operands
(`MAX_OPERANDS_LEN`) — whichever comes first.  The 48th operand breaks the
loop without an error. -/
def parseOperandsLoop (fuel : Nat) (s : Stream) (acc : List Number) :
    Except Err (List Number) :=
  match fuel with
  | 0 => .error .OutOfFuel
  | fuel + 1 =>
    if s.at_end then .ok acc
    else do
      let (b, s) ← s.readU8
      if b ≤ 21 then .ok acc
      else do
        let (op, s) ← parse_number fuel b s
        let acc := acc ++ [op]
        if 48 ≤ acc.length then .ok acc
        else parseOperandsLoop fuel s acc

/-- `DictionaryParser::parse_operands` (`src/src/cff.rs`). -/
def DictionaryParser.parse_operands (fuel : Nat) (p : DictionaryParser) :
    Except Err DictionaryParser := do
  let ops ← parseOperandsLoop fuel ⟨p.data, p.operands_offset⟩ []
  .ok { p with operands := ops }

/-- `Metadata` (`src/src/cff.rs`): the three INDEX views. -/
structure Metadata where
  global_subrs : DataIndex
  local_subrs : DataIndex
  char_strings : DataIndex
deriving DecidableEq

/-- The operator-dispatch loop of `parse_top_dict` (`src/src/cff.rs`):
collect the CharStrings offset (operator 17) and the Private DICT range
(operator 18), stopping early once both are known. -/
def topDictLoop (fuel : Nat) (p : DictionaryParser) (cs_off : Nat)
    (range : Option (Nat × Nat)) : Except Err (Nat × Option (Nat × Nat)) :=
  match fuel with
  | 0 => .error .OutOfFuel
  | fuel + 1 =>
    match p.parse_next fuel with
    | none => .ok (cs_off, range)
    | some (op, p) => do
      let (cs_off, range, p) ←
        if op = 17 then do
          let p ← p.parse_operands fuel
          let cs_off :=
            if p.operands.length = 1 then
              usizeOfI32 ((p.operands.getD 0 (.Integer 0)).as_i32)
            else cs_off
          pure (cs_off, range, p)
        else if op = 18 then do
          let p ← p.parse_operands fuel
          let range :=
            if p.operands.length = 2 then
              let len := usizeOfI32 ((p.operands.getD 0 (.Integer 0)).as_i32)
              let start := usizeOfI32 ((p.operands.getD 1 (.Integer 0)).as_i32)
              if start + len < 18446744073709551616 then some (start, start + len)
              else range
            else range
          pure (cs_off, range, p)
        else pure (cs_off, range, p)
      if cs_off ≠ 0 ∧ range.isSome then .ok (cs_off, range)
      else topDictLoop fuel p cs_off range

/-- `parse_top_dict` (`src/src/cff.rs`). -/
def parse_top_dict (fuel : Nat) (s : Stream) :
    Except Err ((Nat × Option (Nat × Nat)) × Stream) := do
  let (index, s) ← parse_index s
  match index.get 0 with
  | none => .error (.CFF .NoCharStrings)
  | some d => do
    let r ← topDictLoop fuel (DictionaryParser.new d) 0 none
    .ok (r, s)

/-- The scan loop of `parse_private_dict` (`src/src/cff.rs`): find the
Local Subrs offset (operator 19) and stop. -/
def privateDictLoop (fuel : Nat) (p : DictionaryParser) : Except Err (Option Nat) :=
  match fuel with
  | 0 => .error .OutOfFuel
  | fuel + 1 =>
    match p.parse_next fuel with
    | none => .ok none
    | some (op, p) =>
      if op = 19 then do
        let p ← p.parse_operands fuel
        .ok (if p.operands.length = 1 then
          some (usizeOfI32 ((p.operands.getD 0 (.Integer 0)).as_i32))
        else none)
      else privateDictLoop fuel p

/-- `parse_private_dict` (`src/src/cff.rs`). -/
def parse_private_dict (fuel : Nat) (data : List Nat) : Except Err (Option Nat) :=
  privateDictLoop fuel (DictionaryParser.new data)

/-- `parse_metadata` (`src/src/cff.rs`): header, Name INDEX, Top DICT,
Private DICT, String INDEX, Global Subrs, Local Subrs, CharStrings. -/
def parse_metadata (fuel : Nat) (data : List Nat) : Except Err Metadata := do
  let s : Stream := ⟨data, 0⟩
  let (major, s) ← s.readU8
  let s := s.skip_len 1
  let (header_size, s) ← s.readU8
  let s := s.skip_len 1
  if major ≠ 1 then .error (.UnsupportedTableVersion major)
  else do
    let s := if 4 < header_size then s.skip_len (header_size - 4) else s
    let s ← skip_index s
    let ((char_strings_offset, private_dict_range), s) ← parse_top_dict fuel s
    if char_strings_offset = 0 then .error (.CFF .NoCharStrings)
    else do
      let subroutines_offset ←
        match private_dict_range with
        | some (st, en) => do
          let sl ← trySlice data st en
          parse_private_dict fuel sl
        | none => pure none
      let s ← skip_index s
      let (global_subrs, _s) ← parse_index s
      let local_subrs ←
        match private_dict_range, subroutines_offset with
        | some (st, _), some so =>
          if st + so < 18446744073709551616 then do
            let sl ← trySlice data (st + so) data.length
            let (idx, _) ← parse_index ⟨sl, 0⟩
            pure idx
          else pure DataIndex.default
        | _, _ => pure DataIndex.default
      let (char_strings, _) ← parse_index ⟨data, char_strings_offset⟩
      .ok { global_subrs, local_subrs, char_strings }

/-- `MAX_ARGUMENTS_STACK_LEN` (`src/src/cff.rs`): Adobe TN #5177 Appendix B. -/
def MAX_ARGUMENTS_STACK_LEN : Nat := 48

/-- `STACK_LIMIT` (`src/src/cff.rs`): the subroutine nesting ceiling. -/
def STACK_LIMIT : Nat := 10

/-- A drawing command delivered to the caller's `OutlineBuilder` sink. -/
inductive DrawCmd where
  | moveTo (x y : ℚ)
  | lineTo (x y : ℚ)
  | curveTo (x1 y1 x2 y2 x y : ℚ)
  | close
deriving DecidableEq

/-- `f32::MAX` as an exact rational: `(2 - 2^-23) * 2^127`. -/
def f32Max : ℚ := 2 ^ 128 - 2 ^ 104

def f32Min : ℚ := -f32Max

/-- `RectF` (`src/src/cff.rs`): the running bounding box. -/
structure RectF where
  x_min : ℚ
  y_min : ℚ
  x_max : ℚ
  y_max : ℚ
deriving DecidableEq

/-- The sentinel extremes the bbox is initialized to in `parse_char_string`:
`(f32::MAX, f32::MAX, f32::MIN, f32::MIN)`. -/
def RectF.initial : RectF := ⟨f32Max, f32Max, f32Min, f32Min⟩

/-- `Builder` (`src/src/cff.rs`): wraps the caller's sink; every emitted
point passes through the bbox updater.  The commands forwarded to the
caller's `dyn OutlineBuilder` are recorded in `cmds`. -/
structure Builder where
  cmds : List DrawCmd
  bbox : RectF
deriving DecidableEq

def Builder.update_bbox (b : Builder) (x y : ℚ) : Builder :=
  { b with bbox := ⟨min b.bbox.x_min x, min b.bbox.y_min y,
                    max b.bbox.x_max x, max b.bbox.y_max y⟩ }

def Builder.move_to (b : Builder) (x y : ℚ) : Builder :=
  let b := b.update_bbox x y
  { b with cmds := b.cmds ++ [.moveTo x y] }

def Builder.line_to (b : Builder) (x y : ℚ) : Builder :=
  let b := b.update_bbox x y
  { b with cmds := b.cmds ++ [.lineTo x y] }

def Builder.curve_to (b : Builder) (x1 y1 x2 y2 x y : ℚ) : Builder :=
  let b := ((b.update_bbox x1 y1).update_bbox x2 y2).update_bbox x y
  { b with cmds := b.cmds ++ [.curveTo x1 y1 x2 y2 x y] }

def Builder.close (b : Builder) : Builder :=
  { b with cmds := b.cmds ++ [.close] }

/-- `ArgumentsStack` (`src/src/cff.rs`): the live stack entries as a list
(the source keeps a fixed 48-slot array plus a length; `max_len` is always
`MAX_ARGUMENTS_STACK_LEN` at the only construction site).  `highWater` is a
ghost high-water mark, recorded by `push` only, used to state the
"at every instant" stack-bound property; it has no influence on the
computation. -/
structure ArgumentsStack where
  data : List ℚ
  highWater : Nat
deriving DecidableEq

def ArgumentsStack.len (st : ArgumentsStack) : Nat := st.data.length

def ArgumentsStack.is_empty (st : ArgumentsStack) : Bool := st.data.isEmpty

/-- `ArgumentsStack::push`: refuses (leaving the stack untouched) when the
stack already holds `MAX_ARGUMENTS_STACK_LEN` values.  The `Option CFFError`
mirrors the `Result<()>` of the `&mut self` method. -/
def ArgumentsStack.push (st : ArgumentsStack) (n : ℚ) :
    ArgumentsStack × Option CFFError :=
  if st.data.length = MAX_ARGUMENTS_STACK_LEN then
    (st, some .ArgumentsStackLimitReached)
  else
    ({ data := st.data ++ [n], highWater := max st.highWater (st.data.length + 1) },
     none)

/-- `ArgumentsStack::at` (`at` is a Lean keyword, hence the name). -/
def ArgumentsStack.atI (st : ArgumentsStack) (i : Nat) : ℚ := st.data.getD i 0

def ArgumentsStack.pop (st : ArgumentsStack) : ℚ × ArgumentsStack :=
  (st.data.getLastD 0, { st with data := st.data.dropLast })

def ArgumentsStack.reverse (st : ArgumentsStack) : ArgumentsStack :=
  { st with data := st.data.reverse }

def ArgumentsStack.clear (st : ArgumentsStack) : ArgumentsStack :=
  { st with data := [] }

/-- The state shared across the interpreter recursion: the
`CharStringParserContext` flags of the source, plus the two further `&mut`
arguments of `_parse_char_string` (the operand stack and the sink-wrapping
builder).  `maxDepth` is a ghost field recording the greatest `depth` at
which a CharString frame has executed; it has no influence on the
computation and exists to state the nesting-depth property. -/
structure CharStringState where
  width_parsed : Bool
  is_first_move_to : Bool
  stems_len : Nat
  stack : ArgumentsStack
  builder : Builder
  maxDepth : Nat
deriving DecidableEq

/-- The `RELATIVE_LINE_TO` loop of `_parse_char_string`: consume operand
pairs off the (index-iterated) stack, emitting lines. -/
def rlineToLoop : List ℚ → ℚ → ℚ → Builder → ℚ × ℚ × Builder
  | dxa :: dya :: rest, x, y, bl =>
    let x := x + dxa
    let y := y + dya
    rlineToLoop rest x y (bl.line_to x y)
  | _, x, y, bl => (x, y, bl)

/-- The `HORIZONTAL_LINE_TO` / `VERTICAL_LINE_TO` loop: one delta per
element, alternating axes; `vertical` is the axis of the next delta. -/
def altLineToLoop (vertical : Bool) : List ℚ → ℚ → ℚ → Builder → ℚ × ℚ × Builder
  | d :: rest, x, y, bl =>
    let x := if vertical then x else x + d
    let y := if vertical then y + d else y
    altLineToLoop (!vertical) rest x y (bl.line_to x y)
  | [], x, y, bl => (x, y, bl)

/-- The `RELATIVE_CURVE_TO` loop: sextuples, each a relative cubic. -/
def rrCurveToLoop : List ℚ → ℚ → ℚ → Builder → ℚ × ℚ × Builder
  | a :: b :: c :: d :: e :: f :: rest, x, y, bl =>
    let x1 := x + a
    let y1 := y + b
    let x2 := x1 + c
    let y2 := y1 + d
    let x := x2 + e
    let y := y2 + f
    rrCurveToLoop rest x y (bl.curve_to x1 y1 x2 y2 x y)
  | _, x, y, bl => (x, y, bl)

/-- The `RELATIVE_CURVE_LINE` loop: sextuple cubics while more than two
operands remain, then one final line pair. -/
def rcurveLineLoop : List ℚ → ℚ → ℚ → Builder → ℚ × ℚ × Builder
  | [dxd, dyd], x, y, bl =>
    let x := x + dxd
    let y := y + dyd
    (x, y, bl.line_to x y)
  | a :: b :: c :: d :: e :: f :: rest, x, y, bl =>
    let x1 := x + a
    let y1 := y + b
    let x2 := x1 + c
    let y2 := y1 + d
    let x := x2 + e
    let y := y2 + f
    rcurveLineLoop rest x y (bl.curve_to x1 y1 x2 y2 x y)
  | _, x, y, bl => (x, y, bl)

/-- The `RELATIVE_LINE_CURVE` loop: line pairs while more than six operands
remain, then one final cubic sextuple. -/
def rlineCurveLoop : List ℚ → ℚ → ℚ → Builder → ℚ × ℚ × Builder
  | [a, b, c, d, e, f], x, y, bl =>
    let x1 := x + a
    let y1 := y + b
    let x2 := x1 + c
    let y2 := y1 + d
    let x := x2 + e
    let y := y2 + f
    (x, y, bl.curve_to x1 y1 x2 y2 x y)
  | dxa :: dya :: rest, x, y, bl =>
    let x := x + dxa
    let y := y + dya
    rlineCurveLoop rest x y (bl.line_to x y)
  | _, x, y, bl => (x, y, bl)

/-- The `VV_CURVE_TO` loop: quadruples `dya dxb dyb dyc`. -/
def vvCurveToLoop : List ℚ → ℚ → ℚ → Builder → ℚ × ℚ × Builder
  | a :: b :: c :: d :: rest, x, y, bl =>
    let x1 := x
    let y1 := y + a
    let x2 := x1 + b
    let y2 := y1 + c
    let x := x2
    let y := y2 + d
    vvCurveToLoop rest x y (bl.curve_to x1 y1 x2 y2 x y)
  | _, x, y, bl => (x, y, bl)

/-- The `HH_CURVE_TO` loop: quadruples `dxa dxb dyb dxc`. -/
def hhCurveToLoop : List ℚ → ℚ → ℚ → Builder → ℚ × ℚ × Builder
  | a :: b :: c :: d :: rest, x, y, bl =>
    let x1 := x + a
    let y1 := y
    let x2 := x1 + b
    let y2 := y1 + c
    let x := x2 + d
    let y := y2
    hhCurveToLoop rest x y (bl.curve_to x1 y1 x2 y2 x y)
  | _, x, y, bl => (x, y, bl)

/-- The `VH_CURVE_TO` / `HV_CURVE_TO` loop of `_parse_char_string`: the
source reverses the stack and pops segments of four (plus a conditional
fifth final delta); each call here is one alternating segment, matching
one half of the source's loop body, with the source's length checks before
each segment and the emptiness check between segments.  `horizontal` tells
whether the segment starts on the X axis.  Fuel exhaustion cannot occur
when called with fuel exceeding the stack length. -/
def altCurveLoop (fuel : Nat) (horizontal : Bool) (x y : ℚ)
    (st : ArgumentsStack) (bl : Builder) :
    ℚ × ℚ × ArgumentsStack × Builder × Option Err :=
  match fuel with
  | 0 => (x, y, st, bl, some .OutOfFuel)
  | fuel + 1 =>
    if st.is_empty then (x, y, st, bl, none)
    else if st.len < 4 then (x, y, st, bl, some (.CFF .InvalidArgumentsStackLength))
    else if horizontal then
      let (d1, st) := st.pop
      let x1 := x + d1
      let y1 := y
      let (d2, st) := st.pop
      let x2 := x1 + d2
      let (d3, st) := st.pop
      let y2 := y1 + d3
      let (d4, st) := st.pop
      let y := y2 + d4
      let (x, st) :=
        if st.len = 1 then
          let (d5, st) := st.pop
          (x2 + d5, st)
        else (x2 + 0, st)
      let bl := bl.curve_to x1 y1 x2 y2 x y
      altCurveLoop fuel (!horizontal) x y st bl
    else
      let (d1, st) := st.pop
      let x1 := x
      let y1 := y + d1
      let (d2, st) := st.pop
      let x2 := x1 + d2
      let (d3, st) := st.pop
      let y2 := y1 + d3
      let (d4, st) := st.pop
      let x := x2 + d4
      let (y, st) :=
        if st.len = 1 then
          let (d5, st) := st.pop
          (y2 + d5, st)
        else (y2 + 0, st)
      let bl := bl.curve_to x1 y1 x2 y2 x y
      altCurveLoop fuel (!horizontal) x y st bl

/-- `calc_subroutine_bias` (`src/src/cff.rs`), Adobe TN #5176 chapter 16. -/
def calc_subroutine_bias (len : Nat) : Nat :=
  if len < 1240 then 107 else if len < 33900 then 1131 else 32768

/-- The subroutine index computation of `callsubr`/`callgsubr`:
`stack.pop() as i32 + bias as i32` followed by `as u16` (the release-mode
wrap of the `i32` addition only affects bits the `u16` cast keeps). -/
def biasedIndex (v : ℚ) (bias : Nat) : Nat :=
  ((i32Sat v + (bias : Int)).emod 65536).toNat

/-- The result of executing one dispatch-loop iteration of
`_parse_char_string` (`src/src/cff.rs`): the loop continues at a new cursor
position, enters a subroutine (resuming at `pos` afterwards), finishes the
frame (end of stream or the `return` operator), or fails. -/
inductive StepRes where
  | Continue (x y : ℚ) (st : CharStringState) (pos : Nat)
  | CallSubr (subr : List Nat) (x y : ℚ) (st : CharStringState) (pos : Nat)
  | Done (x y : ℚ) (st : CharStringState)
  | Fail (st : CharStringState) (e : Err)

/-- One iteration of the dispatch loop of `_parse_char_string`
(`src/src/cff.rs`): the end-of-stream check and the whole operator `match`,
translated arm by arm.  Reads of operand bytes are inlined
`Stream::read::<u8>` calls on the same cursor.  The recursion of the source
(the loop itself and the `callsubr`/`callgsubr` re-entry) lives in
`parseCharStringInner` below; this function is recursion-free. -/
def csStep (md : Metadata) (cs : List Nat) (x y : ℚ)
    (st : CharStringState) (depth : Nat) (pos : Nat) : StepRes :=
  if cs.length ≤ pos then .Done x y st
  else
    let op := cs.getD pos 0 % 256
    let pos := pos + 1
    if op = 0 ∨ op = 2 ∨ op = 9 ∨ op = 13 ∨ op = 15 ∨ op = 16 ∨ op = 17 then
      .Fail st (.CFF .InvalidOperator)
    else if op = 1 ∨ op = 3 ∨ op = 18 ∨ op = 23 then
      let consumeWidth := st.stack.len % 2 = 1 ∧ st.width_parsed = false
      let len := if consumeWidth then st.stack.len - 1 else st.stack.len
      let st := { st with
        width_parsed := st.width_parsed || decide consumeWidth,
        stems_len := (st.stems_len + len / 2) % 4294967296,
        stack := st.stack.clear }
      .Continue x y st pos
    else if op = 4 then
      if st.stack.len = 2 ∧ st.width_parsed = false then
        let st := { st with width_parsed := true }
        let st := if st.is_first_move_to then { st with is_first_move_to := false }
                  else { st with builder := st.builder.close }
        let y := y + st.stack.atI 1
        let st := { st with builder := st.builder.move_to x y, stack := st.stack.clear }
        .Continue x y st pos
      else if st.stack.len ≠ 1 then
        .Fail st (.CFF .InvalidArgumentsStackLength)
      else
        let st := if st.is_first_move_to then { st with is_first_move_to := false }
                  else { st with builder := st.builder.close }
        let y := y + st.stack.atI 0
        let st := { st with builder := st.builder.move_to x y, stack := st.stack.clear }
        .Continue x y st pos
    else if op = 5 then
      if st.stack.len % 2 = 1 then .Fail st (.CFF .InvalidArgumentsStackLength)
      else
        let r := rlineToLoop st.stack.data x y st.builder
        let st := { st with builder := r.2.2, stack := st.stack.clear }
        .Continue r.1 r.2.1 st pos
    else if op = 6 then
      let r := altLineToLoop false st.stack.data x y st.builder
      let st := { st with builder := r.2.2, stack := st.stack.clear }
      .Continue r.1 r.2.1 st pos
    else if op = 7 then
      let r := altLineToLoop true st.stack.data x y st.builder
      let st := { st with builder := r.2.2, stack := st.stack.clear }
      .Continue r.1 r.2.1 st pos
    else if op = 8 then
      if st.stack.len % 6 ≠ 0 then .Fail st (.CFF .InvalidArgumentsStackLength)
      else
        let r := rrCurveToLoop st.stack.data x y st.builder
        let st := { st with builder := r.2.2, stack := st.stack.clear }
        .Continue r.1 r.2.1 st pos
    else if op = 10 then
      if st.stack.len = 0 then .Fail st (.CFF .InvalidArgumentsStackLength)
      else if depth = STACK_LIMIT then .Fail st (.CFF .NestingLimitReached)
      else
        let bias := calc_subroutine_bias md.local_subrs.len
        let p := st.stack.pop
        let st := { st with stack := p.2 }
        match md.local_subrs.get (biasedIndex p.1 bias) with
        | none => .Fail st .NoGlyph
        | some char_string => .CallSubr char_string x y st pos
    else if op = 11 then
      .Done x y st
    else if op = 12 then
      if pos < cs.length then
        let op2 := cs.getD pos 0 % 256
        let pos := pos + 1
        if op2 = 34 then
          if st.stack.len ≠ 7 then .Fail st (.CFF .InvalidArgumentsStackLength)
          else
            let dx1 := x + st.stack.atI 0
            let dy1 := y
            let dx2 := dx1 + st.stack.atI 1
            let dy2 := dy1 + st.stack.atI 2
            let dx3 := dx2 + st.stack.atI 3
            let dy3 := dy2
            let dx4 := dx3 + st.stack.atI 4
            let dy4 := dy2
            let dx5 := dx4 + st.stack.atI 5
            let dy5 := y
            let x := dx5 + st.stack.atI 6
            let bl := (st.builder.curve_to dx1 dy1 dx2 dy2 dx3 dy3).curve_to dx4 dy4 dx5 dy5 x y
            let st := { st with builder := bl, stack := st.stack.clear }
            .Continue x y st pos
        else if op2 = 35 then
          if st.stack.len ≠ 13 then .Fail st (.CFF .InvalidArgumentsStackLength)
          else
            let dx1 := x + st.stack.atI 0
            let dy1 := y + st.stack.atI 1
            let dx2 := dx1 + st.stack.atI 2
            let dy2 := dy1 + st.stack.atI 3
            let dx3 := dx2 + st.stack.atI 4
            let dy3 := dy2 + st.stack.atI 5
            let dx4 := dx3 + st.stack.atI 6
            let dy4 := dy3 + st.stack.atI 7
            let dx5 := dx4 + st.stack.atI 8
            let dy5 := dy4 + st.stack.atI 9
            let x := dx5 + st.stack.atI 10
            let y := dy5 + st.stack.atI 11
            let bl := (st.builder.curve_to dx1 dy1 dx2 dy2 dx3 dy3).curve_to dx4 dy4 dx5 dy5 x y
            let st := { st with builder := bl, stack := st.stack.clear }
            .Continue x y st pos
        else if op2 = 36 then
          if st.stack.len ≠ 9 then .Fail st (.CFF .InvalidArgumentsStackLength)
          else
            let dx1 := x + st.stack.atI 0
            let dy1 := y + st.stack.atI 1
            let dx2 := dx1 + st.stack.atI 2
            let dy2 := dy1 + st.stack.atI 3
            let dx3 := dx2 + st.stack.atI 4
            let dy3 := dy2
            let dx4 := dx3 + st.stack.atI 5
            let dy4 := dy2
            let dx5 := dx4 + st.stack.atI 6
            let dy5 := dy4 + st.stack.atI 7
            let x := dx5 + st.stack.atI 8
            let bl := (st.builder.curve_to dx1 dy1 dx2 dy2 dx3 dy3).curve_to dx4 dy4 dx5 dy5 x y
            let st := { st with builder := bl, stack := st.stack.clear }
            .Continue x y st pos
        else if op2 = 37 then
          if st.stack.len ≠ 11 then .Fail st (.CFF .InvalidArgumentsStackLength)
          else
            let dx1 := x + st.stack.atI 0
            let dy1 := y + st.stack.atI 1
            let dx2 := dx1 + st.stack.atI 2
            let dy2 := dy1 + st.stack.atI 3
            let dx3 := dx2 + st.stack.atI 4
            let dy3 := dy2 + st.stack.atI 5
            let dx4 := dx3 + st.stack.atI 6
            let dy4 := dy3 + st.stack.atI 7
            let dx5 := dx4 + st.stack.atI 8
            let dy5 := dy4 + st.stack.atI 9
            let (x, y) :=
              if abs (dx5 - x) > abs (dy5 - y) then (dx5 + st.stack.atI 10, y)
              else (x, dy5 + st.stack.atI 10)
            let bl := (st.builder.curve_to dx1 dy1 dx2 dy2 dx3 dy3).curve_to dx4 dy4 dx5 dy5 x y
            let st := { st with builder := bl, stack := st.stack.clear }
            .Continue x y st pos
        else .Fail st (.CFF .UnsupportedOperator)
      else .Fail st .SliceOutOfBounds
    else if op = 14 then
      let st :=
        if st.stack.len ≠ 0 ∧ st.width_parsed = false then
          { st with stack := st.stack.clear, width_parsed := true }
        else st
      let st :=
        if st.is_first_move_to = false then
          { st with is_first_move_to := true, builder := st.builder.close }
        else st
      .Continue x y st pos
    else if op = 19 ∨ op = 20 then
      let len0 := st.stack.len
      let st := { st with stack := st.stack.clear }
      let consumeWidth := len0 % 2 = 1 ∧ st.width_parsed = false
      let len := if consumeWidth then len0 - 1 else len0
      let st := { st with
        width_parsed := st.width_parsed || decide consumeWidth,
        stems_len := (st.stems_len + len / 2) % 4294967296 }
      .Continue x y st (pos + (st.stems_len + 7) % 4294967296 / 8)
    else if op = 21 then
      if st.stack.len = 3 ∧ st.width_parsed = false then
        let st := { st with width_parsed := true }
        let st := if st.is_first_move_to then { st with is_first_move_to := false }
                  else { st with builder := st.builder.close }
        let x := x + st.stack.atI 1
        let y := y + st.stack.atI 2
        let st := { st with builder := st.builder.move_to x y, stack := st.stack.clear }
        .Continue x y st pos
      else if st.stack.len ≠ 2 then
        .Fail st (.CFF .InvalidArgumentsStackLength)
      else
        let st := if st.is_first_move_to then { st with is_first_move_to := false }
                  else { st with builder := st.builder.close }
        let x := x + st.stack.atI 0
        let y := y + st.stack.atI 1
        let st := { st with builder := st.builder.move_to x y, stack := st.stack.clear }
        .Continue x y st pos
    else if op = 22 then
      if st.stack.len = 2 ∧ st.width_parsed = false then
        let st := { st with width_parsed := true }
        let st := if st.is_first_move_to then { st with is_first_move_to := false }
                  else { st with builder := st.builder.close }
        let x := x + st.stack.atI 1
        let st := { st with builder := st.builder.move_to x y, stack := st.stack.clear }
        .Continue x y st pos
      else if st.stack.len ≠ 1 then
        .Fail st (.CFF .InvalidArgumentsStackLength)
      else
        let st := if st.is_first_move_to then { st with is_first_move_to := false }
                  else { st with builder := st.builder.close }
        let x := x + st.stack.atI 0
        let st := { st with builder := st.builder.move_to x y, stack := st.stack.clear }
        .Continue x y st pos
    else if op = 24 then
      if st.stack.len < 8 then .Fail st (.CFF .InvalidArgumentsStackLength)
      else if (st.stack.len - 2) % 6 ≠ 0 then .Fail st (.CFF .InvalidArgumentsStackLength)
      else
        let r := rcurveLineLoop st.stack.data x y st.builder
        let st := { st with builder := r.2.2, stack := st.stack.clear }
        .Continue r.1 r.2.1 st pos
    else if op = 25 then
      if st.stack.len < 8 then .Fail st (.CFF .InvalidArgumentsStackLength)
      else if (st.stack.len - 6) % 2 = 1 then .Fail st (.CFF .InvalidArgumentsStackLength)
      else
        let r := rlineCurveLoop st.stack.data x y st.builder
        let st := { st with builder := r.2.2, stack := st.stack.clear }
        .Continue r.1 r.2.1 st pos
    else if op = 26 then
      let firstX := if st.stack.len % 2 = 1 then x + st.stack.atI 0 else x
      let vals := if st.stack.len % 2 = 1 then st.stack.data.drop 1 else st.stack.data
      if vals.length % 4 ≠ 0 then .Fail st (.CFF .InvalidArgumentsStackLength)
      else
        let r := vvCurveToLoop vals firstX y st.builder
        let st := { st with builder := r.2.2, stack := st.stack.clear }
        .Continue r.1 r.2.1 st pos
    else if op = 27 then
      let firstY := if st.stack.len % 2 = 1 then y + st.stack.atI 0 else y
      let vals := if st.stack.len % 2 = 1 then st.stack.data.drop 1 else st.stack.data
      if vals.length % 4 ≠ 0 then .Fail st (.CFF .InvalidArgumentsStackLength)
      else
        let r := hhCurveToLoop vals x firstY st.builder
        let st := { st with builder := r.2.2, stack := st.stack.clear }
        .Continue r.1 r.2.1 st pos
    else if op = 28 then
      if pos + 2 ≤ cs.length then
        let b1 := cs.getD pos 0 % 256
        let b2 := cs.getD (pos + 1) 0 % 256
        let u := b1 * 256 + b2
        let n : Int := if u < 32768 then (u : Int) else (u : Int) - 65536
        let p := st.stack.push (n : ℚ)
        let st := { st with stack := p.1 }
        match p.2 with
        | some ce => .Fail st (.CFF ce)
        | none => .Continue x y st (pos + 2)
      else .Fail st .SliceOutOfBounds
    else if op = 29 then
      if st.stack.len = 0 then .Fail st (.CFF .InvalidArgumentsStackLength)
      else if depth = STACK_LIMIT then .Fail st (.CFF .NestingLimitReached)
      else
        let bias := calc_subroutine_bias md.global_subrs.len
        let p := st.stack.pop
        let st := { st with stack := p.2 }
        match md.global_subrs.get (biasedIndex p.1 bias) with
        | none => .Fail st .NoGlyph
        | some char_string => .CallSubr char_string x y st pos
    else if op = 30 then
      if st.stack.len < 4 then .Fail st (.CFF .InvalidArgumentsStackLength)
      else
        let r := altCurveLoop (st.stack.len + 1) false x y st.stack.reverse st.builder
        let st := { st with stack := r.2.2.1, builder := r.2.2.2.1 }
        match r.2.2.2.2 with
        | some e => .Fail st e
        | none => .Continue r.1 r.2.1 st pos
    else if op = 31 then
      if st.stack.len < 4 then .Fail st (.CFF .InvalidArgumentsStackLength)
      else
        let r := altCurveLoop (st.stack.len + 1) true x y st.stack.reverse st.builder
        let st := { st with stack := r.2.2.1, builder := r.2.2.2.1 }
        match r.2.2.2.2 with
        | some e => .Fail st e
        | none => .Continue r.1 r.2.1 st pos
    else if 32 ≤ op ∧ op ≤ 246 then
      let p := st.stack.push (((op : Int) - 139 : Int) : ℚ)
      let st := { st with stack := p.1 }
      match p.2 with
      | some ce => .Fail st (.CFF ce)
      | none => .Continue x y st pos
    else if 247 ≤ op ∧ op ≤ 250 then
      if pos < cs.length then
        let b1 := cs.getD pos 0 % 256
        let n := (op - 247) * 256 + b1 + 108
        let p := st.stack.push (n : ℚ)
        let st := { st with stack := p.1 }
        match p.2 with
        | some ce => .Fail st (.CFF ce)
        | none => .Continue x y st (pos + 1)
      else .Fail st .SliceOutOfBounds
    else if 251 ≤ op ∧ op ≤ 254 then
      if pos < cs.length then
        let b1 := cs.getD pos 0 % 256
        let n : Int := -((op : Int) - 251) * 256 - (b1 : Int) - 108
        let p := st.stack.push (n : ℚ)
        let st := { st with stack := p.1 }
        match p.2 with
        | some ce => .Fail st (.CFF ce)
        | none => .Continue x y st (pos + 1)
      else .Fail st .SliceOutOfBounds
    else if op = 255 then
      if pos + 4 ≤ cs.length then
        let u := beVal ((cs.drop pos).take 4)
        let n : Int := if u < 2147483648 then (u : Int) else (u : Int) - 4294967296
        let p := st.stack.push ((n : ℚ) / 65536)
        let st := { st with stack := p.1 }
        match p.2 with
        | some ce => .Fail st (.CFF ce)
        | none => .Continue x y st (pos + 4)
      else .Fail st .SliceOutOfBounds
    else
      -- unreachable: `op < 256`, and every byte value has an arm above
      .Fail st (.CFF .InvalidOperator)

/-- `_parse_char_string` (`src/src/cff.rs`): the Type-2 CharString VM.
The source's dispatch loop and its two recursive subroutine entries, driving
`csStep`; the callee shares the caller's state and its returned pen position
replaces the caller's.  On frame entry (every iteration re-asserts it) the
ghost `maxDepth` field records the executing depth.  The shared state is
returned also on the error path, mirroring `&mut` persistence.  `fuel`
bounds only the recursion of the embedding; exhaustion yields
`Err.OutOfFuel`. -/
def parseCharStringInner (fuel : Nat) (md : Metadata) (cs : List Nat) (x y : ℚ)
    (st : CharStringState) (depth : Nat) (pos : Nat) :
    CharStringState × Except Err (ℚ × ℚ) :=
  match fuel with
  | 0 => (st, .error .OutOfFuel)
  | fuel + 1 =>
    let st := { st with maxDepth := max st.maxDepth depth }
    match csStep md cs x y st depth pos with
    | .Done x y st => (st, .ok (x, y))
    | .Fail st e => (st, .error e)
    | .Continue x y st pos => parseCharStringInner fuel md cs x y st depth pos
    | .CallSubr subr x y st pos =>
      match parseCharStringInner fuel md subr x y st (depth + 1) 0 with
      | (st, .error e) => (st, .error e)
      | (st, .ok (x, y)) => parseCharStringInner fuel md cs x y st depth pos

/-- `Rect` (`src/src/raw.rs` / crate root): the `i16` bounding box returned
to the caller. -/
structure Rect where
  x_min : Int
  y_min : Int
  x_max : Int
  y_max : Int
deriving DecidableEq

/-- The `as i16` casts at the end of `parse_char_string`. -/
def rectOfBBox (b : RectF) : Rect :=
  ⟨i16Sat b.x_min, i16Sat b.y_min, i16Sat b.x_max, i16Sat b.y_max⟩

/-- The initial interpreter state built in `parse_char_string`: fresh
context flags, empty operand stack, bbox at the sentinel extremes. -/
def initState : CharStringState :=
  { width_parsed := false
    is_first_move_to := true
    stems_len := 0
    stack := { data := [], highWater := 0 }
    builder := { cmds := [], bbox := RectF.initial }
    maxDepth := 0 }

/-- `parse_char_string` (`src/src/cff.rs`): the per-glyph render entry.
Looks up the glyph's CharString (absence is `Error::NoGlyph`), runs the VM
from `(0, 0)` at depth 0, casts the bbox to `i16`.  The shared state is
returned alongside so that the sink's received command list (and the ghost
fields) remain observable, as they are in Rust through the caller's
`&mut dyn OutlineBuilder`. -/
def parse_char_string (fuel : Nat) (md : Metadata) (glyph_id : Nat) :
    CharStringState × Except Err Rect :=
  match md.char_strings.get glyph_id with
  | none => (initState, .error .NoGlyph)
  | some data =>
    match parseCharStringInner fuel md data 0 0 initState 0 0 with
    | (st, .error e) => (st, .error e)
    | (st, .ok _) => (st, .ok (rectOfBBox st.builder.bbox))

/-- Whether a drawing command passes a point (and hence coordinates) to the
sink: every command except `close`. -/
def DrawCmd.isPoint : DrawCmd → Bool
  | .close => false
  | _ => true

/-- Ordered comparison of two decoded offsets, absent values ignored. -/
def optLeB : Option Nat → Option Nat → Bool
  | some a, some b => a ≤ b
  | _, _ => true

/-- The decoded offsets of a `VarOffsets` view are monotonically
non-decreasing (spec section 8, invariant 1). -/
def offsetsMonotone (vo : VarOffsets) : Prop :=
  ∀ j, j < vo.len → ∀ i, i < j + 1 → optLeB (vo.get i) (vo.get j) = true

instance (vo : VarOffsets) : Decidable (offsetsMonotone vo) :=
  Nat.decidableBallLT _ _

/-- The last decoded offset of an INDEX view lies within its payload slice
(spec section 8, invariant 1). -/
def lastOffsetWithin (idx : DataIndex) : Bool :=
  match idx.offsets.last with
  | none => true
  | some v => v ≤ idx.data.length

/-- The INDEX-view invariant exactly as claim C3 states it: `count ≤ 0xFFFE`,
offsets monotonically non-decreasing, last offset within the owning slice. -/
def indexInvariant (idx : DataIndex) : Prop :=
  idx.len ≤ 65534 ∧ offsetsMonotone idx.offsets ∧ lastOffsetWithin idx = true

/-- The part of the INDEX-view invariant the parser actually establishes:
monotonicity is never validated by `parse_index_impl`. -/
def indexInvariantNoMono (idx : DataIndex) : Prop :=
  idx.len ≤ 65534 ∧ lastOffsetWithin idx = true

/-- The number of stem pairs a `hintmask`/`cntrmask` derives from the
residual operand stack: a leading width is consumed exactly when the stack
length is odd and no width has been parsed yet; each remaining pair is one
stem. -/
def hintmaskPairs (st : CharStringState) : Nat :=
  (if st.stack.len % 2 = 1 ∧ st.width_parsed = false then st.stack.len - 1
   else st.stack.len) / 2

/-- Modelled from the spec: the shortest integer encoding rule of claim C8
(single-byte biased for -107..107, two-byte for the ±108..±1131 ranges,
operator 28 shortint with a big-endian two-byte value otherwise).  The
repository contains no encoder; this follows the spec's words. -/
def encodeIntShortest (v : Int) : List Nat :=
  if -107 ≤ v ∧ v ≤ 107 then [(v + 139).toNat]
  else if 108 ≤ v ∧ v ≤ 1131 then
    [(v - 108).toNat / 256 + 247, (v - 108).toNat % 256]
  else if -1131 ≤ v ∧ v ≤ -108 then
    [(-v - 108).toNat / 256 + 251, (-v - 108).toNat % 256]
  else
    [28, (v % 65536).toNat / 256, (v % 65536).toNat % 256]

/-- Decoding one number the way the DICT reader does: the lead byte
dispatches `parse_number` over the remaining bytes. -/
def decodeNumber (bytes : List Nat) : Except Err (Number × Stream) :=
  match bytes with
  | [] => .error .SliceOutOfBounds
  | b0 :: rest => parse_number 10 b0 ⟨rest, 0⟩

/-- A complete 24-byte CFF table: header (major 1, header size 4), empty
Name INDEX, a Top DICT INDEX whose single dictionary sets the CharStrings
offset to 17, empty String and Global Subrs INDEXes, and at offset 17 a
CharStrings INDEX with `count = 2`, `offSize = 1` and the stored offset
array `[1, 5, 2]` — strictly decreasing between its second and third
entries — with a 1-byte payload. -/
def exBytes : List Nat :=
  [1, 0, 4, 0,
   0, 0,
   0, 1, 1, 1, 3, 156, 17,
   0, 0,
   0, 0,
   0, 2, 1, 1, 5, 2, 14]

/-- The metadata `parse_metadata` produces for `exBytes`. -/
def exMd : Metadata :=
  { global_subrs := DataIndex.default
    local_subrs := DataIndex.default
    char_strings := { data := [14], offsets := { data := [1, 5, 2], offset_size := .Size1 } } }

/-- A DICT byte stream holding 49 encoded integers (single-byte encoding of
zero) before the operator byte 0. -/
def dict49 : List Nat := List.replicate 49 139 ++ [0]

/-- Metadata whose only CharString is `width 0 0 rmoveto, 0, endchar`:
the `endchar` executes with a non-empty operand stack after the width has
been consumed by `rmoveto`. -/
def md5 : Metadata :=
  { global_subrs := DataIndex.default
    local_subrs := DataIndex.default
    char_strings := { data := [140, 139, 139, 21, 139, 14],
                      offsets := { data := [1, 7], offset_size := .Size1 } } }

/-- Metadata whose only CharString is a bare `endchar`. -/
def md6 : Metadata :=
  { global_subrs := DataIndex.default
    local_subrs := DataIndex.default
    char_strings := { data := [14], offsets := { data := [1, 2], offset_size := .Size1 } } }

/-- An interpreter state with one value on the operand stack and the width
already parsed. -/
def st5 : CharStringState :=
  { width_parsed := true
    is_first_move_to := true
    stems_len := 0
    stack := { data := [5], highWater := 1 }
    builder := { cmds := [], bbox := RectF.initial }
    maxDepth := 0 }

/-- An interpreter state with one value on the operand stack. -/
def st1 : CharStringState :=
  { width_parsed := false
    is_first_move_to := true
    stems_len := 0
    stack := { data := [3], highWater := 1 }
    builder := { cmds := [], bbox := RectF.initial }
    maxDepth := 0 }

/-- The builder-evolution relation between the sink state before and after
a stretch of interpretation: commands are only appended, and if no appended
command carries a point the bounding box is untouched. -/
def BuilderEvolves (b b' : Builder) : Prop :=
  ∃ t, b'.cmds = b.cmds ++ t ∧ (t.filter DrawCmd.isPoint = [] → b'.bbox = b.bbox)

/-- The run invariant relating a pre-state to a reached state: the operand
stack never exceeds 48 entries (both instantaneously — via the high-water
mark — and finally), no frame has executed deeper than depth 10, and the
sink evolved by appends only. -/
def InvOK (st0 r : CharStringState) : Prop :=
  r.stack.data.length ≤ 48 ∧ r.stack.highWater ≤ 48 ∧ r.maxDepth ≤ 10 ∧
    BuilderEvolves st0.builder r.builder

/-- The operand stack is within its 48-entry capacity, including its
instantaneous high-water mark. -/
def stackOK (s : ArgumentsStack) : Prop :=
  s.data.length ≤ 48 ∧ s.highWater ≤ 48

/-- An interpreter state with three values on the operand stack and the
width not yet parsed: the stack length is odd, so a `hintmask` reading it
consumes a leading width and records one stem pair. -/
def stH : CharStringState :=
  { width_parsed := false
    is_first_move_to := true
    stems_len := 0
    stack := { data := [1, 2, 3], highWater := 3 }
    builder := { cmds := [], bbox := RectF.initial }
    maxDepth := 0 }

/-- The state the `endchar` arm hands to the next dispatch iteration
(ghost depth recording included): clear the stack when it is non-empty and
no width has been parsed, then close the path unless the frame is still
waiting for its first `moveto`. -/
def endcharState (st : CharStringState) (depth : Nat) : CharStringState :=
  let st0 := { st with maxDepth := max st.maxDepth depth }
  let st1 := if st0.stack.len ≠ 0 ∧ st0.width_parsed = false then
      { st0 with stack := st0.stack.clear, width_parsed := true } else st0
  if st1.is_first_move_to = false then
    { st1 with is_first_move_to := true, builder := st1.builder.close }
  else st1

/-- What a single dispatch step guarantees about the state it hands on:
capacity of the stack is kept, the ghost depth record is untouched (the
driver owns it), the sink only grew by appends, and a subroutine entry can
only happen when the depth guard passed. -/
def stepOK (st0 : CharStringState) (depth : Nat) : StepRes → Prop
  | .Continue _ _ st' _ =>
    stackOK st'.stack ∧ st'.maxDepth = st0.maxDepth ∧ BuilderEvolves st0.builder st'.builder
  | .CallSubr _ _ _ st' _ =>
    (stackOK st'.stack ∧ st'.maxDepth = st0.maxDepth ∧ BuilderEvolves st0.builder st'.builder) ∧
      depth ≠ STACK_LIMIT
  | .Done _ _ st' =>
    stackOK st'.stack ∧ st'.maxDepth = st0.maxDepth ∧ BuilderEvolves st0.builder st'.builder
  | .Fail st' _ =>
    stackOK st'.stack ∧ st'.maxDepth = st0.maxDepth ∧ BuilderEvolves st0.builder st'.builder

theorem builderEvolves_refl (b : Builder) : BuilderEvolves b b :=
  ⟨[], (List.append_nil _).symm, fun _ => rfl⟩

theorem builderEvolves_trans {a b c : Builder}
    (h1 : BuilderEvolves a b) (h2 : BuilderEvolves b c) : BuilderEvolves a c := by
  obtain ⟨t1, e1, f1⟩ := h1
  obtain ⟨t2, e2, f2⟩ := h2
  refine ⟨t1 ++ t2, by rw [e2, e1, List.append_assoc], ?_⟩
  intro h
  rw [List.filter_append, List.append_eq_nil] at h
  exact (f2 h.2).trans (f1 h.1)

theorem builderEvolves_close (b : Builder) : BuilderEvolves b b.close :=
  ⟨[.close], rfl, fun _ => rfl⟩

theorem builderEvolves_move (b : Builder) (x y : ℚ) :
    BuilderEvolves b (b.move_to x y) :=
  ⟨[.moveTo x y], rfl, by intro h; simp [List.filter, DrawCmd.isPoint] at h⟩

theorem builderEvolves_line (b : Builder) (x y : ℚ) :
    BuilderEvolves b (b.line_to x y) :=
  ⟨[.lineTo x y], rfl, by intro h; simp [List.filter, DrawCmd.isPoint] at h⟩

theorem builderEvolves_curve (b : Builder) (x1 y1 x2 y2 x y : ℚ) :
    BuilderEvolves b (b.curve_to x1 y1 x2 y2 x y) :=
  ⟨[.curveTo x1 y1 x2 y2 x y], rfl, by intro h; simp [List.filter, DrawCmd.isPoint] at h⟩

theorem rlineToLoop_evolves : ∀ (l : List ℚ) (x y : ℚ) (b : Builder),
    BuilderEvolves b (rlineToLoop l x y b).2.2
  | [], _, _, _ => builderEvolves_refl _
  | [_], _, _, _ => builderEvolves_refl _
  | _ :: _ :: rest, x, y, b => by
    rw [rlineToLoop]
    exact builderEvolves_trans (builderEvolves_line ..) (rlineToLoop_evolves rest ..)

theorem altLineToLoop_evolves : ∀ (v : Bool) (l : List ℚ) (x y : ℚ) (b : Builder),
    BuilderEvolves b (altLineToLoop v l x y b).2.2
  | _, [], _, _, _ => builderEvolves_refl _
  | v, _ :: rest, x, y, b => by
    rw [altLineToLoop]
    exact builderEvolves_trans (builderEvolves_line ..) (altLineToLoop_evolves (!v) rest ..)

theorem rrCurveToLoop_evolves : ∀ (l : List ℚ) (x y : ℚ) (b : Builder),
    BuilderEvolves b (rrCurveToLoop l x y b).2.2
  | [], _, _, _ => builderEvolves_refl _
  | [_], _, _, _ => builderEvolves_refl _
  | [_, _], _, _, _ => builderEvolves_refl _
  | [_, _, _], _, _, _ => builderEvolves_refl _
  | [_, _, _, _], _, _, _ => builderEvolves_refl _
  | [_, _, _, _, _], _, _, _ => builderEvolves_refl _
  | _ :: _ :: _ :: _ :: _ :: _ :: rest, x, y, b => by
    rw [rrCurveToLoop]
    exact builderEvolves_trans (builderEvolves_curve ..) (rrCurveToLoop_evolves rest ..)

theorem rcurveLineLoop_evolves : ∀ (l : List ℚ) (x y : ℚ) (b : Builder),
    BuilderEvolves b (rcurveLineLoop l x y b).2.2
  | [], _, _, _ => builderEvolves_refl _
  | [_], _, _, _ => builderEvolves_refl _
  | [_, _], _, _, _ => builderEvolves_line ..
  | [_, _, _], _, _, _ => builderEvolves_refl _
  | [_, _, _, _], _, _, _ => builderEvolves_refl _
  | [_, _, _, _, _], _, _, _ => builderEvolves_refl _
  | _ :: _ :: _ :: _ :: _ :: _ :: rest, x, y, b => by
    rw [rcurveLineLoop]
    exact builderEvolves_trans (builderEvolves_curve ..) (rcurveLineLoop_evolves rest ..)

theorem rlineCurveLoop_evolves (l : List ℚ) (x y : ℚ) (b : Builder) :
    BuilderEvolves b (rlineCurveLoop l x y b).2.2 := by
  induction l, x, y, b using rlineCurveLoop.induct with
  | case1 a b c d e f x y bl =>
    rw [rlineCurveLoop]
    exact builderEvolves_curve ..
  | case2 dxa dya rest x y bl h x2 y2 ih =>
    rw [rlineCurveLoop]
    · exact builderEvolves_trans (builderEvolves_line ..) ih
    · exact h
  | case3 l x y bl h1 h2 =>
    rw [rlineCurveLoop]
    · exact builderEvolves_refl _
    · exact h1
    · exact h2

theorem vvCurveToLoop_evolves : ∀ (l : List ℚ) (x y : ℚ) (b : Builder),
    BuilderEvolves b (vvCurveToLoop l x y b).2.2
  | [], _, _, _ => builderEvolves_refl _
  | [_], _, _, _ => builderEvolves_refl _
  | [_, _], _, _, _ => builderEvolves_refl _
  | [_, _, _], _, _, _ => builderEvolves_refl _
  | _ :: _ :: _ :: _ :: rest, x, y, b => by
    rw [vvCurveToLoop]
    exact builderEvolves_trans (builderEvolves_curve ..) (vvCurveToLoop_evolves rest ..)

theorem hhCurveToLoop_evolves : ∀ (l : List ℚ) (x y : ℚ) (b : Builder),
    BuilderEvolves b (hhCurveToLoop l x y b).2.2
  | [], _, _, _ => builderEvolves_refl _
  | [_], _, _, _ => builderEvolves_refl _
  | [_, _], _, _, _ => builderEvolves_refl _
  | [_, _, _], _, _, _ => builderEvolves_refl _
  | _ :: _ :: _ :: _ :: rest, x, y, b => by
    rw [hhCurveToLoop]
    exact builderEvolves_trans (builderEvolves_curve ..) (hhCurveToLoop_evolves rest ..)

theorem pop_snd_length (s : ArgumentsStack) :
    (s.pop).2.data.length = s.data.length - 1 := by
  simp [ArgumentsStack.pop]

theorem pop_snd_highWater (s : ArgumentsStack) : (s.pop).2.highWater = s.highWater := rfl

theorem push_inv (s : ArgumentsStack) (n : ℚ)
    (h1 : s.data.length ≤ 48) (h2 : s.highWater ≤ 48) :
    (s.push n).1.data.length ≤ 48 ∧ (s.push n).1.highWater ≤ 48 := by
  unfold ArgumentsStack.push MAX_ARGUMENTS_STACK_LEN
  split
  · exact ⟨h1, h2⟩
  · next h =>
    refine ⟨?_, ?_⟩ <;> simp only [List.length_append, List.length_cons, List.length_nil] <;> omega

/-- The invariant of the `vhcurveto`/`hvcurveto` segment loop: it only pops
the stack (never growing it, never touching the high-water mark) and only
appends to the builder. -/
theorem altCurveLoop_inv : ∀ (fuel : Nat) (hor : Bool) (x y : ℚ)
    (st : ArgumentsStack) (bl : Builder),
    (altCurveLoop fuel hor x y st bl).2.2.1.data.length ≤ st.data.length ∧
    (altCurveLoop fuel hor x y st bl).2.2.1.highWater = st.highWater ∧
    BuilderEvolves bl (altCurveLoop fuel hor x y st bl).2.2.2.1
  | 0, hor, x, y, st, bl => ⟨le_refl _, rfl, builderEvolves_refl _⟩
  | fuel + 1, hor, x, y, st, bl => by
    rw [altCurveLoop]
    split
    · exact ⟨le_refl _, rfl, builderEvolves_refl _⟩
    split
    · exact ⟨le_refl _, rfl, builderEvolves_refl _⟩
    split
    all_goals simp only [ArgumentsStack.pop, ArgumentsStack.len]
    all_goals split
    all_goals {
      refine ⟨?_, ?_, ?_⟩
      · refine le_trans (altCurveLoop_inv fuel ..).1 ?_
        simp only [List.length_dropLast]
        omega
      · rw [(altCurveLoop_inv fuel ..).2.1]
      · exact builderEvolves_trans (builderEvolves_curve ..) (altCurveLoop_inv fuel ..).2.2
    }

set_option maxHeartbeats 4000000 in
/-- Every single dispatch step keeps the operand stack within capacity,
leaves the ghost depth record alone, only appends to the sink, and enters a
subroutine only past the depth guard. -/
theorem csStep_ok (md : Metadata) (cs : List Nat) (x y : ℚ) (st : CharStringState)
    (depth pos : Nat) (h1 : st.stack.data.length ≤ 48) (h2 : st.stack.highWater ≤ 48) :
    stepOK st depth (csStep md cs x y st depth pos) := by
  have hpop : (st.stack.pop).2.data.length ≤ 48 := by
    simp only [ArgumentsStack.pop, List.length_dropLast]; omega
  by_cases hEnd : cs.length ≤ pos
  · rw [csStep, if_pos hEnd]
    exact ⟨⟨h1, h2⟩, rfl, builderEvolves_refl _⟩
  rw [csStep, if_neg hEnd]
  dsimp only
  by_cases hRes : cs.getD pos 0 % 256 = 0 ∨ cs.getD pos 0 % 256 = 2 ∨ cs.getD pos 0 % 256 = 9 ∨
      cs.getD pos 0 % 256 = 13 ∨ cs.getD pos 0 % 256 = 15 ∨ cs.getD pos 0 % 256 = 16 ∨
      cs.getD pos 0 % 256 = 17
  · rw [if_pos hRes]
    exact ⟨⟨h1, h2⟩, rfl, builderEvolves_refl _⟩
  rw [if_neg hRes]
  by_cases hStem : cs.getD pos 0 % 256 = 1 ∨ cs.getD pos 0 % 256 = 3 ∨
      cs.getD pos 0 % 256 = 18 ∨ cs.getD pos 0 % 256 = 23
  · rw [if_pos hStem]
    exact ⟨⟨Nat.zero_le _, h2⟩, rfl, builderEvolves_refl _⟩
  rw [if_neg hStem]
  by_cases h4 : cs.getD pos 0 % 256 = 4
  · rw [if_pos h4]
    by_cases h4a : st.stack.len = 2 ∧ st.width_parsed = false
    · rw [if_pos h4a]
      by_cases hFm : st.is_first_move_to = true
      · rw [if_pos hFm]
        exact ⟨⟨Nat.zero_le _, h2⟩, rfl, builderEvolves_move ..⟩
      · rw [if_neg hFm]
        exact ⟨⟨Nat.zero_le _, h2⟩, rfl,
          builderEvolves_trans (builderEvolves_close _) (builderEvolves_move ..)⟩
    rw [if_neg h4a]
    by_cases h4b : st.stack.len ≠ 1
    · rw [if_pos h4b]
      exact ⟨⟨h1, h2⟩, rfl, builderEvolves_refl _⟩
    rw [if_neg h4b]
    by_cases hFm : st.is_first_move_to = true
    · rw [if_pos hFm]
      exact ⟨⟨Nat.zero_le _, h2⟩, rfl, builderEvolves_move ..⟩
    · rw [if_neg hFm]
      exact ⟨⟨Nat.zero_le _, h2⟩, rfl,
        builderEvolves_trans (builderEvolves_close _) (builderEvolves_move ..)⟩
  rw [if_neg h4]
  by_cases h5 : cs.getD pos 0 % 256 = 5
  · rw [if_pos h5]
    by_cases h5a : st.stack.len % 2 = 1
    · rw [if_pos h5a]
      exact ⟨⟨h1, h2⟩, rfl, builderEvolves_refl _⟩
    rw [if_neg h5a]
    exact ⟨⟨Nat.zero_le _, h2⟩, rfl, rlineToLoop_evolves ..⟩
  rw [if_neg h5]
  by_cases h6 : cs.getD pos 0 % 256 = 6
  · rw [if_pos h6]
    exact ⟨⟨Nat.zero_le _, h2⟩, rfl, altLineToLoop_evolves ..⟩
  rw [if_neg h6]
  by_cases h7 : cs.getD pos 0 % 256 = 7
  · rw [if_pos h7]
    exact ⟨⟨Nat.zero_le _, h2⟩, rfl, altLineToLoop_evolves ..⟩
  rw [if_neg h7]
  by_cases h8 : cs.getD pos 0 % 256 = 8
  · rw [if_pos h8]
    by_cases h8a : st.stack.len % 6 ≠ 0
    · rw [if_pos h8a]
      exact ⟨⟨h1, h2⟩, rfl, builderEvolves_refl _⟩
    rw [if_neg h8a]
    exact ⟨⟨Nat.zero_le _, h2⟩, rfl, rrCurveToLoop_evolves ..⟩
  rw [if_neg h8]
  by_cases h10 : cs.getD pos 0 % 256 = 10
  · rw [if_pos h10]
    by_cases h10a : st.stack.len = 0
    · rw [if_pos h10a]
      exact ⟨⟨h1, h2⟩, rfl, builderEvolves_refl _⟩
    rw [if_neg h10a]
    by_cases h10b : depth = STACK_LIMIT
    · rw [if_pos h10b]
      exact ⟨⟨h1, h2⟩, rfl, builderEvolves_refl _⟩
    rw [if_neg h10b]
    cases hsub : md.local_subrs.get
        (biasedIndex (st.stack.pop).1 (calc_subroutine_bias md.local_subrs.len)) with
    | none =>
      exact ⟨⟨hpop, h2⟩, rfl, builderEvolves_refl _⟩
    | some sub =>
      exact ⟨⟨⟨hpop, h2⟩, rfl, builderEvolves_refl _⟩, h10b⟩
  rw [if_neg h10]
  by_cases h11 : cs.getD pos 0 % 256 = 11
  · rw [if_pos h11]
    exact ⟨⟨h1, h2⟩, rfl, builderEvolves_refl _⟩
  rw [if_neg h11]
  by_cases h12 : cs.getD pos 0 % 256 = 12
  · rw [if_pos h12]
    by_cases h12a : pos + 1 < cs.length
    · rw [if_pos h12a]
      by_cases h34 : cs.getD (pos + 1) 0 % 256 = 34
      · rw [if_pos h34]
        by_cases hl : st.stack.len ≠ 7
        · rw [if_pos hl]
          exact ⟨⟨h1, h2⟩, rfl, builderEvolves_refl _⟩
        rw [if_neg hl]
        exact ⟨⟨Nat.zero_le _, h2⟩, rfl,
          builderEvolves_trans (builderEvolves_curve ..) (builderEvolves_curve ..)⟩
      rw [if_neg h34]
      by_cases h35 : cs.getD (pos + 1) 0 % 256 = 35
      · rw [if_pos h35]
        by_cases hl : st.stack.len ≠ 13
        · rw [if_pos hl]
          exact ⟨⟨h1, h2⟩, rfl, builderEvolves_refl _⟩
        rw [if_neg hl]
        exact ⟨⟨Nat.zero_le _, h2⟩, rfl,
          builderEvolves_trans (builderEvolves_curve ..) (builderEvolves_curve ..)⟩
      rw [if_neg h35]
      by_cases h36 : cs.getD (pos + 1) 0 % 256 = 36
      · rw [if_pos h36]
        by_cases hl : st.stack.len ≠ 9
        · rw [if_pos hl]
          exact ⟨⟨h1, h2⟩, rfl, builderEvolves_refl _⟩
        rw [if_neg hl]
        exact ⟨⟨Nat.zero_le _, h2⟩, rfl,
          builderEvolves_trans (builderEvolves_curve ..) (builderEvolves_curve ..)⟩
      rw [if_neg h36]
      by_cases h37 : cs.getD (pos + 1) 0 % 256 = 37
      · rw [if_pos h37]
        by_cases hl : st.stack.len ≠ 11
        · rw [if_pos hl]
          exact ⟨⟨h1, h2⟩, rfl, builderEvolves_refl _⟩
        rw [if_neg hl]
        by_cases habs : abs ((((x + st.stack.atI 0) + st.stack.atI 2) + st.stack.atI 4) +
            st.stack.atI 6 + st.stack.atI 8 - x) >
            abs ((((y + st.stack.atI 1) + st.stack.atI 3) + st.stack.atI 5) +
            st.stack.atI 7 + st.stack.atI 9 - y)
        · rw [if_pos habs]
          exact ⟨⟨Nat.zero_le _, h2⟩, rfl,
            builderEvolves_trans (builderEvolves_curve ..) (builderEvolves_curve ..)⟩
        · rw [if_neg habs]
          exact ⟨⟨Nat.zero_le _, h2⟩, rfl,
            builderEvolves_trans (builderEvolves_curve ..) (builderEvolves_curve ..)⟩
      rw [if_neg h37]
      exact ⟨⟨h1, h2⟩, rfl, builderEvolves_refl _⟩
    · rw [if_neg h12a]
      exact ⟨⟨h1, h2⟩, rfl, builderEvolves_refl _⟩
  rw [if_neg h12]
  by_cases h14 : cs.getD pos 0 % 256 = 14
  · rw [if_pos h14]
    by_cases h14a : st.stack.len ≠ 0 ∧ st.width_parsed = false
    · rw [if_pos h14a]
      by_cases h14b : st.is_first_move_to = false
      · rw [if_pos h14b]
        exact ⟨⟨Nat.zero_le _, h2⟩, rfl, builderEvolves_close _⟩
      · rw [if_neg h14b]
        exact ⟨⟨Nat.zero_le _, h2⟩, rfl, builderEvolves_refl _⟩
    rw [if_neg h14a]
    by_cases h14b : st.is_first_move_to = false
    · rw [if_pos h14b]
      exact ⟨⟨h1, h2⟩, rfl, builderEvolves_close _⟩
    · rw [if_neg h14b]
      exact ⟨⟨h1, h2⟩, rfl, builderEvolves_refl _⟩
  rw [if_neg h14]
  by_cases h19 : cs.getD pos 0 % 256 = 19 ∨ cs.getD pos 0 % 256 = 20
  · rw [if_pos h19]
    exact ⟨⟨Nat.zero_le _, h2⟩, rfl, builderEvolves_refl _⟩
  rw [if_neg h19]
  by_cases h21 : cs.getD pos 0 % 256 = 21
  · rw [if_pos h21]
    by_cases h21a : st.stack.len = 3 ∧ st.width_parsed = false
    · rw [if_pos h21a]
      by_cases hFm : st.is_first_move_to = true
      · rw [if_pos hFm]
        exact ⟨⟨Nat.zero_le _, h2⟩, rfl, builderEvolves_move ..⟩
      · rw [if_neg hFm]
        exact ⟨⟨Nat.zero_le _, h2⟩, rfl,
          builderEvolves_trans (builderEvolves_close _) (builderEvolves_move ..)⟩
    rw [if_neg h21a]
    by_cases h21b : st.stack.len ≠ 2
    · rw [if_pos h21b]
      exact ⟨⟨h1, h2⟩, rfl, builderEvolves_refl _⟩
    rw [if_neg h21b]
    by_cases hFm : st.is_first_move_to = true
    · rw [if_pos hFm]
      exact ⟨⟨Nat.zero_le _, h2⟩, rfl, builderEvolves_move ..⟩
    · rw [if_neg hFm]
      exact ⟨⟨Nat.zero_le _, h2⟩, rfl,
        builderEvolves_trans (builderEvolves_close _) (builderEvolves_move ..)⟩
  rw [if_neg h21]
  by_cases h22 : cs.getD pos 0 % 256 = 22
  · rw [if_pos h22]
    by_cases h22a : st.stack.len = 2 ∧ st.width_parsed = false
    · rw [if_pos h22a]
      by_cases hFm : st.is_first_move_to = true
      · rw [if_pos hFm]
        exact ⟨⟨Nat.zero_le _, h2⟩, rfl, builderEvolves_move ..⟩
      · rw [if_neg hFm]
        exact ⟨⟨Nat.zero_le _, h2⟩, rfl,
          builderEvolves_trans (builderEvolves_close _) (builderEvolves_move ..)⟩
    rw [if_neg h22a]
    by_cases h22b : st.stack.len ≠ 1
    · rw [if_pos h22b]
      exact ⟨⟨h1, h2⟩, rfl, builderEvolves_refl _⟩
    rw [if_neg h22b]
    by_cases hFm : st.is_first_move_to = true
    · rw [if_pos hFm]
      exact ⟨⟨Nat.zero_le _, h2⟩, rfl, builderEvolves_move ..⟩
    · rw [if_neg hFm]
      exact ⟨⟨Nat.zero_le _, h2⟩, rfl,
        builderEvolves_trans (builderEvolves_close _) (builderEvolves_move ..)⟩
  rw [if_neg h22]
  by_cases h24 : cs.getD pos 0 % 256 = 24
  · rw [if_pos h24]
    by_cases h24a : st.stack.len < 8
    · rw [if_pos h24a]
      exact ⟨⟨h1, h2⟩, rfl, builderEvolves_refl _⟩
    rw [if_neg h24a]
    by_cases h24b : (st.stack.len - 2) % 6 ≠ 0
    · rw [if_pos h24b]
      exact ⟨⟨h1, h2⟩, rfl, builderEvolves_refl _⟩
    rw [if_neg h24b]
    exact ⟨⟨Nat.zero_le _, h2⟩, rfl, rcurveLineLoop_evolves ..⟩
  rw [if_neg h24]
  by_cases h25 : cs.getD pos 0 % 256 = 25
  · rw [if_pos h25]
    by_cases h25a : st.stack.len < 8
    · rw [if_pos h25a]
      exact ⟨⟨h1, h2⟩, rfl, builderEvolves_refl _⟩
    rw [if_neg h25a]
    by_cases h25b : (st.stack.len - 6) % 2 = 1
    · rw [if_pos h25b]
      exact ⟨⟨h1, h2⟩, rfl, builderEvolves_refl _⟩
    rw [if_neg h25b]
    exact ⟨⟨Nat.zero_le _, h2⟩, rfl, rlineCurveLoop_evolves ..⟩
  rw [if_neg h25]
  by_cases h26 : cs.getD pos 0 % 256 = 26
  · rw [if_pos h26]
    by_cases h26a : (if st.stack.len % 2 = 1 then st.stack.data.drop 1 else st.stack.data).length % 4 ≠ 0
    · rw [if_pos h26a]
      exact ⟨⟨h1, h2⟩, rfl, builderEvolves_refl _⟩
    rw [if_neg h26a]
    exact ⟨⟨Nat.zero_le _, h2⟩, rfl, vvCurveToLoop_evolves ..⟩
  rw [if_neg h26]
  by_cases h27 : cs.getD pos 0 % 256 = 27
  · rw [if_pos h27]
    by_cases h27a : (if st.stack.len % 2 = 1 then st.stack.data.drop 1 else st.stack.data).length % 4 ≠ 0
    · rw [if_pos h27a]
      exact ⟨⟨h1, h2⟩, rfl, builderEvolves_refl _⟩
    rw [if_neg h27a]
    exact ⟨⟨Nat.zero_le _, h2⟩, rfl, hhCurveToLoop_evolves ..⟩
  rw [if_neg h27]
  by_cases h28 : cs.getD pos 0 % 256 = 28
  · rw [if_pos h28]
    by_cases h28a : pos + 1 + 2 ≤ cs.length
    · rw [if_pos h28a]
      split <;>
        exact ⟨⟨(push_inv _ _ h1 h2).1, (push_inv _ _ h1 h2).2⟩, rfl, builderEvolves_refl _⟩
    · rw [if_neg h28a]
      exact ⟨⟨h1, h2⟩, rfl, builderEvolves_refl _⟩
  rw [if_neg h28]
  by_cases h29 : cs.getD pos 0 % 256 = 29
  · rw [if_pos h29]
    by_cases h29a : st.stack.len = 0
    · rw [if_pos h29a]
      exact ⟨⟨h1, h2⟩, rfl, builderEvolves_refl _⟩
    rw [if_neg h29a]
    by_cases h29b : depth = STACK_LIMIT
    · rw [if_pos h29b]
      exact ⟨⟨h1, h2⟩, rfl, builderEvolves_refl _⟩
    rw [if_neg h29b]
    cases hsub : md.global_subrs.get
        (biasedIndex (st.stack.pop).1 (calc_subroutine_bias md.global_subrs.len)) with
    | none =>
      exact ⟨⟨hpop, h2⟩, rfl, builderEvolves_refl _⟩
    | some sub =>
      exact ⟨⟨⟨hpop, h2⟩, rfl, builderEvolves_refl _⟩, h29b⟩
  rw [if_neg h29]
  by_cases h30 : cs.getD pos 0 % 256 = 30
  · rw [if_pos h30]
    by_cases h30a : st.stack.len < 4
    · rw [if_pos h30a]
      exact ⟨⟨h1, h2⟩, rfl, builderEvolves_refl _⟩
    rw [if_neg h30a]
    have hacl := altCurveLoop_inv (st.stack.len + 1) false x y st.stack.reverse st.builder
    cases he : (altCurveLoop (st.stack.len + 1) false x y st.stack.reverse st.builder).2.2.2.2 with
    | some e =>
      refine ⟨⟨?_, ?_⟩, rfl, hacl.2.2⟩
      · refine le_trans hacl.1 ?_
        simpa [ArgumentsStack.reverse] using h1
      · rw [hacl.2.1]; exact h2
    | none =>
      refine ⟨⟨?_, ?_⟩, rfl, hacl.2.2⟩
      · refine le_trans hacl.1 ?_
        simpa [ArgumentsStack.reverse] using h1
      · rw [hacl.2.1]; exact h2
  rw [if_neg h30]
  by_cases h31 : cs.getD pos 0 % 256 = 31
  · rw [if_pos h31]
    by_cases h31a : st.stack.len < 4
    · rw [if_pos h31a]
      exact ⟨⟨h1, h2⟩, rfl, builderEvolves_refl _⟩
    rw [if_neg h31a]
    have hacl := altCurveLoop_inv (st.stack.len + 1) true x y st.stack.reverse st.builder
    cases he : (altCurveLoop (st.stack.len + 1) true x y st.stack.reverse st.builder).2.2.2.2 with
    | some e =>
      refine ⟨⟨?_, ?_⟩, rfl, hacl.2.2⟩
      · refine le_trans hacl.1 ?_
        simpa [ArgumentsStack.reverse] using h1
      · rw [hacl.2.1]; exact h2
    | none =>
      refine ⟨⟨?_, ?_⟩, rfl, hacl.2.2⟩
      · refine le_trans hacl.1 ?_
        simpa [ArgumentsStack.reverse] using h1
      · rw [hacl.2.1]; exact h2
  rw [if_neg h31]
  by_cases h32 : 32 ≤ cs.getD pos 0 % 256 ∧ cs.getD pos 0 % 256 ≤ 246
  · rw [if_pos h32]
    split <;>
        exact ⟨⟨(push_inv _ _ h1 h2).1, (push_inv _ _ h1 h2).2⟩, rfl, builderEvolves_refl _⟩
  rw [if_neg h32]
  by_cases h247 : 247 ≤ cs.getD pos 0 % 256 ∧ cs.getD pos 0 % 256 ≤ 250
  · rw [if_pos h247]
    by_cases ha : pos + 1 < cs.length
    · rw [if_pos ha]
      split <;>
        exact ⟨⟨(push_inv _ _ h1 h2).1, (push_inv _ _ h1 h2).2⟩, rfl, builderEvolves_refl _⟩
    · rw [if_neg ha]
      exact ⟨⟨h1, h2⟩, rfl, builderEvolves_refl _⟩
  rw [if_neg h247]
  by_cases h251 : 251 ≤ cs.getD pos 0 % 256 ∧ cs.getD pos 0 % 256 ≤ 254
  · rw [if_pos h251]
    by_cases ha : pos + 1 < cs.length
    · rw [if_pos ha]
      split <;>
        exact ⟨⟨(push_inv _ _ h1 h2).1, (push_inv _ _ h1 h2).2⟩, rfl, builderEvolves_refl _⟩
    · rw [if_neg ha]
      exact ⟨⟨h1, h2⟩, rfl, builderEvolves_refl _⟩
  rw [if_neg h251]
  by_cases h255 : cs.getD pos 0 % 256 = 255
  · rw [if_pos h255]
    by_cases ha : pos + 1 + 4 ≤ cs.length
    · rw [if_pos ha]
      split <;>
        exact ⟨⟨(push_inv _ _ h1 h2).1, (push_inv _ _ h1 h2).2⟩, rfl, builderEvolves_refl _⟩
    · rw [if_neg ha]
      exact ⟨⟨h1, h2⟩, rfl, builderEvolves_refl _⟩
  rw [if_neg h255]
  exact ⟨⟨h1, h2⟩, rfl, builderEvolves_refl _⟩


set_option maxHeartbeats 1000000 in
/-- The run invariant of the CharString VM: from a well-formed state at
depth at most 10, every reachable state (including on the error path) keeps
the operand stack within 48 entries, records no frame deeper than 10, and
only appends to the sink. -/
theorem inner_inv : ∀ (fuel : Nat) (md : Metadata) (cs : List Nat) (x y : ℚ)
    (st : CharStringState) (depth pos : Nat),
    st.stack.data.length ≤ 48 → st.stack.highWater ≤ 48 →
    st.maxDepth ≤ 10 → depth ≤ 10 →
    InvOK st (parseCharStringInner fuel md cs x y st depth pos).1
  | 0, md, cs, x, y, st, depth, pos => fun h1 h2 h3 _ =>
    ⟨h1, h2, h3, builderEvolves_refl _⟩
  | fuel + 1, md, cs, x, y, st, depth, pos => by
    intro h1 h2 h3 h4
    have hGd : ({ st with maxDepth := max st.maxDepth depth } : CharStringState).maxDepth ≤ 10 :=
      max_le h3 h4
    have hstep := csStep_ok md cs x y { st with maxDepth := max st.maxDepth depth } depth pos h1 h2
    rw [parseCharStringInner]
    cases hcs : csStep md cs x y { st with maxDepth := max st.maxDepth depth } depth pos with
    | Done x' y' st' =>
      rw [hcs] at hstep
      exact ⟨hstep.1.1, hstep.1.2, hstep.2.1 ▸ hGd, hstep.2.2⟩
    | Fail st' e =>
      rw [hcs] at hstep
      exact ⟨hstep.1.1, hstep.1.2, hstep.2.1 ▸ hGd, hstep.2.2⟩
    | Continue x' y' st' p' =>
      rw [hcs] at hstep
      have hrec := inner_inv fuel md cs x' y' st' depth p'
        hstep.1.1 hstep.1.2 (hstep.2.1 ▸ hGd) h4
      exact ⟨hrec.1, hrec.2.1, hrec.2.2.1,
        builderEvolves_trans hstep.2.2 hrec.2.2.2⟩
    | CallSubr subr x' y' st' p' =>
      rw [hcs] at hstep
      have hd1 : depth + 1 ≤ 10 := by
        have := hstep.2
        simp only [STACK_LIMIT] at this
        omega
      have hrec := inner_inv fuel md subr x' y' st' (depth + 1) 0
        hstep.1.1.1 hstep.1.1.2 (hstep.1.2.1 ▸ hGd) hd1
      dsimp only
      cases hr : parseCharStringInner fuel md subr x' y' st' (depth + 1) 0 with
      | mk stR res =>
        rw [hr] at hrec
        cases res with
        | error e =>
          exact ⟨hrec.1, hrec.2.1, hrec.2.2.1,
            builderEvolves_trans hstep.1.2.2 hrec.2.2.2⟩
        | ok xy =>
          obtain ⟨x2, y2⟩ := xy
          have hrec2 := inner_inv fuel md cs x2 y2 stR depth p'
            hrec.1 hrec.2.1 hrec.2.2.1 h4
          exact ⟨hrec2.1, hrec2.2.1, hrec2.2.2.1,
            builderEvolves_trans (builderEvolves_trans hstep.1.2.2 hrec.2.2.2) hrec2.2.2.2⟩


/-- One driver step of the VM: the `fuel + 1` unfolding. -/
theorem inner_succ (fuel : Nat) (md : Metadata) (cs : List Nat) (x y : ℚ)
    (st : CharStringState) (depth pos : Nat) :
    parseCharStringInner (fuel + 1) md cs x y st depth pos =
      match csStep md cs x y { st with maxDepth := max st.maxDepth depth } depth pos with
      | .Done x y st => (st, .ok (x, y))
      | .Fail st e => (st, .error e)
      | .Continue x y st pos => parseCharStringInner fuel md cs x y st depth pos
      | .CallSubr subr x y st pos =>
        match parseCharStringInner fuel md subr x y st (depth + 1) 0 with
        | (st, .error e) => (st, .error e)
        | (st, .ok (x, y)) => parseCharStringInner fuel md cs x y st depth pos := rfl

theorem csStep_hintmask (md : Metadata) (cs : List Nat) (x y : ℚ)
    (st : CharStringState) (depth pos : Nat) (hpos : pos < cs.length)
    (hop : cs.getD pos 0 % 256 = 19 ∨ cs.getD pos 0 % 256 = 20) :
    csStep md cs x y st depth pos =
      .Continue x y
        { st with stack := st.stack.clear,
                  width_parsed := st.width_parsed ||
                    decide (st.stack.len % 2 = 1 ∧ st.width_parsed = false),
                  stems_len := (st.stems_len + hintmaskPairs st) % 4294967296 }
        (pos + 1 + ((st.stems_len + hintmaskPairs st) % 4294967296 + 7) % 4294967296 / 8) := by
  rcases hop with h | h <;>
  · rw [csStep, if_neg (by omega : ¬cs.length ≤ pos)]
    dsimp only
    rw [h]
    simp only [hintmaskPairs]
    norm_num

theorem csStep_endchar (md : Metadata) (cs : List Nat) (x y : ℚ)
    (st : CharStringState) (depth pos : Nat) (hpos : pos < cs.length)
    (hop : cs.getD pos 0 % 256 = 14) :
    csStep md cs x y st depth pos =
      .Continue x y
        (let st1 := if st.stack.len ≠ 0 ∧ st.width_parsed = false then
            { st with stack := st.stack.clear, width_parsed := true } else st
         if st1.is_first_move_to = false then
            { st1 with is_first_move_to := true, builder := st1.builder.close }
         else st1)
        (pos + 1) := by
  rw [csStep, if_neg (by omega : ¬cs.length ≤ pos)]
  dsimp only
  rw [hop]
  norm_num

theorem csStep_return (md : Metadata) (cs : List Nat) (x y : ℚ)
    (st : CharStringState) (depth pos : Nat) (hpos : pos < cs.length)
    (hop : cs.getD pos 0 % 256 = 11) :
    csStep md cs x y st depth pos = .Done x y st := by
  rw [csStep, if_neg (by omega : ¬cs.length ≤ pos)]
  dsimp only
  rw [hop]
  norm_num

theorem csStep_atEnd (md : Metadata) (cs : List Nat) (x y : ℚ)
    (st : CharStringState) (depth pos : Nat) (hpos : cs.length ≤ pos) :
    csStep md cs x y st depth pos = .Done x y st := by
  rw [csStep, if_pos hpos]

theorem csStep_call_limit (md : Metadata) (cs : List Nat) (x y : ℚ)
    (st : CharStringState) (depth pos : Nat) (hpos : pos < cs.length)
    (hop : cs.getD pos 0 % 256 = 10 ∨ cs.getD pos 0 % 256 = 29)
    (hlen : ¬st.stack.len = 0) (hd : depth = STACK_LIMIT) :
    csStep md cs x y st depth pos = .Fail st (.CFF .NestingLimitReached) := by
  rcases hop with h | h <;>
  · rw [csStep, if_neg (by omega : ¬cs.length ≤ pos)]
    dsimp only
    rw [h]
    norm_num
    rw [if_neg hlen, if_pos hd]

theorem csStep_call_local_none (md : Metadata) (cs : List Nat) (x y : ℚ)
    (st : CharStringState) (depth pos : Nat) (hpos : pos < cs.length)
    (hop : cs.getD pos 0 % 256 = 10)
    (hlen : ¬st.stack.len = 0) (hd : ¬depth = STACK_LIMIT)
    (hget : md.local_subrs.get
      (biasedIndex (st.stack.pop).1 (calc_subroutine_bias md.local_subrs.len)) = none) :
    csStep md cs x y st depth pos =
      .Fail { st with stack := (st.stack.pop).2 } .NoGlyph := by
  rw [csStep, if_neg (by omega : ¬cs.length ≤ pos)]
  dsimp only
  rw [hop]
  norm_num
  rw [if_neg hlen, if_neg hd, hget]

theorem csStep_call_global_none (md : Metadata) (cs : List Nat) (x y : ℚ)
    (st : CharStringState) (depth pos : Nat) (hpos : pos < cs.length)
    (hop : cs.getD pos 0 % 256 = 29)
    (hlen : ¬st.stack.len = 0) (hd : ¬depth = STACK_LIMIT)
    (hget : md.global_subrs.get
      (biasedIndex (st.stack.pop).1 (calc_subroutine_bias md.global_subrs.len)) = none) :
    csStep md cs x y st depth pos =
      .Fail { st with stack := (st.stack.pop).2 } .NoGlyph := by
  rw [csStep, if_neg (by omega : ¬cs.length ≤ pos)]
  dsimp only
  rw [hop]
  norm_num
  rw [if_neg hlen, if_neg hd, hget]

theorem csStep_rmoveto_first (md : Metadata) (cs : List Nat) (x y : ℚ)
    (st : CharStringState) (depth pos : Nat) (hpos : pos < cs.length)
    (hop : cs.getD pos 0 % 256 = 21)
    (hL : st.stack.len = 2) (hFirst : st.is_first_move_to = true) :
    csStep md cs x y st depth pos =
      .Continue (x + st.stack.atI 0) (y + st.stack.atI 1)
        { st with is_first_move_to := false,
                  builder := st.builder.move_to (x + st.stack.atI 0) (y + st.stack.atI 1),
                  stack := st.stack.clear }
        (pos + 1) := by
  rw [csStep, if_neg (by omega : ¬cs.length ≤ pos)]
  dsimp only
  rw [hop]
  norm_num
  rw [if_neg (show ¬(st.stack.len = 3 ∧ st.width_parsed = false) by rw [hL]; simp),
      if_pos hL, if_pos hFirst]


theorem exbind_ok {α β : Type} {m : Except Err α} {f : α → Except Err β} {b : β}
    (h : (m >>= f) = .ok b) : ∃ a, m = .ok a ∧ f a = .ok b := by
  cases m with
  | error e => simp [Bind.bind, Except.bind] at h
  | ok a => exact ⟨a, rfl, by simpa [Bind.bind, Except.bind] using h⟩

theorem read_bytes_length {s : Stream} {n : Nat} {d : List Nat} {s' : Stream}
    (h : s.read_bytes n = .ok (d, s')) : d.length = n := by
  unfold Stream.read_bytes at h
  split at h
  · next hle =>
    simp only [Except.ok.injEq, Prod.mk.injEq] at h
    rw [← h.1, List.length_take, List.length_drop]
    omega
  · cases h

theorem varOffsets_len_le (vo : VarOffsets) : vo.len ≤ 65535 := by
  unfold VarOffsets.len
  have h : vo.data.length % 65536 < 65536 := Nat.mod_lt _ (by omega)
  have h2 := Nat.div_le_self (vo.data.length % 65536) vo.offset_size.toNat
  omega

theorem default_invariant : indexInvariantNoMono DataIndex.default := by
  constructor
  · decide
  · decide

theorem parse_index_impl_post {c : Nat} {s : Stream} {idx : DataIndex} {s' : Stream}
    (h : parse_index_impl c s = .ok (idx, s')) : indexInvariantNoMono idx := by
  unfold parse_index_impl at h
  obtain ⟨⟨os, s1⟩, h1, h⟩ := exbind_ok h
  obtain ⟨⟨od, s2⟩, h2, h⟩ := exbind_ok h
  dsimp only at h
  cases hlast : VarOffsets.last { data := od, offset_size := os } with
  | none =>
    rw [hlast] at h
    simp only [Except.ok.injEq, Prod.mk.injEq] at h
    rw [← h.1]
    exact default_invariant
  | some lo =>
    rw [hlast] at h
    obtain ⟨⟨d, s3⟩, h3, h⟩ := exbind_ok h
    simp only [Except.ok.injEq, Prod.mk.injEq] at h
    rw [← h.1]
    constructor
    · show DataIndex.len _ ≤ 65534
      unfold DataIndex.len
      dsimp only
      have := varOffsets_len_le ({ data := od, offset_size := os } : VarOffsets)
      split <;> omega
    · show lastOffsetWithin _ = true
      unfold lastOffsetWithin
      simp only
      rw [hlast]
      have := read_bytes_length h3
      simp [this]

theorem parse_index_post {s : Stream} {idx : DataIndex} {s' : Stream}
    (h : parse_index s = .ok (idx, s')) : indexInvariantNoMono idx := by
  unfold parse_index at h
  obtain ⟨⟨count, s1⟩, h1, h⟩ := exbind_ok h
  dsimp only at h
  split at h
  · exact parse_index_impl_post h
  · simp only [Except.ok.injEq, Prod.mk.injEq] at h
    rw [← h.1]
    exact default_invariant

/-- Whatever path `parse_metadata` succeeds along, each of the three INDEX
views satisfies the count bound and the last-offset bound (monotonicity is
not established — see the counterexample for claim C3). -/
theorem parse_metadata_post {fuel : Nat} {data : List Nat} {md : Metadata}
    (h : parse_metadata fuel data = .ok md) :
    indexInvariantNoMono md.global_subrs ∧ indexInvariantNoMono md.local_subrs ∧
      indexInvariantNoMono md.char_strings := by
  unfold parse_metadata at h
  obtain ⟨⟨major, s1⟩, _, h⟩ := exbind_ok h
  dsimp only at h
  obtain ⟨⟨hs, s2⟩, _, h⟩ := exbind_ok h
  dsimp only at h
  split at h
  · cases h
  · obtain ⟨s3, _, h⟩ := exbind_ok h
    obtain ⟨⟨⟨cs_off, range⟩, s4⟩, _, h⟩ := exbind_ok h
    dsimp only at h
    split at h
    · cases h
    · split at h
      · next st en =>
        obtain ⟨sl, _, h⟩ := exbind_ok h
        obtain ⟨so, _, h⟩ := exbind_ok h
        obtain ⟨s5, _, h⟩ := exbind_ok h
        obtain ⟨⟨gs, s6⟩, hgs, h⟩ := exbind_ok h
        dsimp only at h
        split at h
        · next st2 _ so2 =>
          split at h
          · obtain ⟨sl2, _, h⟩ := exbind_ok h
            obtain ⟨⟨li, s8⟩, hli, h⟩ := exbind_ok h
            dsimp only at h
            obtain ⟨y2, hy2, h⟩ := exbind_ok h
            obtain ⟨⟨cs2, s9⟩, hcs2, h⟩ := exbind_ok h
            dsimp only at h
            simp only [pure, Except.pure, Except.ok.injEq] at hy2 h
            rw [← h, ← hy2]
            exact ⟨parse_index_post hgs, parse_index_post hli, parse_index_post hcs2⟩
          · obtain ⟨y2, hy2, h⟩ := exbind_ok h
            obtain ⟨⟨cs2, s9⟩, hcs2, h⟩ := exbind_ok h
            dsimp only at h
            simp only [pure, Except.pure, Except.ok.injEq] at hy2 h
            rw [← h, ← hy2]
            exact ⟨parse_index_post hgs, default_invariant, parse_index_post hcs2⟩
        · obtain ⟨y2, hy2, h⟩ := exbind_ok h
          obtain ⟨⟨cs2, s9⟩, hcs2, h⟩ := exbind_ok h
          dsimp only at h
          simp only [pure, Except.pure, Except.ok.injEq] at hy2 h
          rw [← h, ← hy2]
          exact ⟨parse_index_post hgs, default_invariant, parse_index_post hcs2⟩
      · obtain ⟨y0, hy0, h⟩ := exbind_ok h
        simp only [pure, Except.pure, Except.ok.injEq] at hy0
        subst hy0
        obtain ⟨s5, _, h⟩ := exbind_ok h
        obtain ⟨⟨gs, s6⟩, hgs, h⟩ := exbind_ok h
        dsimp only at h
        obtain ⟨y2, hy2, h⟩ := exbind_ok h
        simp only [pure, Except.pure, Except.ok.injEq] at hy2
        subst hy2
        obtain ⟨⟨cs2, s9⟩, hcs2, h⟩ := exbind_ok h
        dsimp only at h
        simp only [Except.ok.injEq] at h
        rw [← h]
        exact ⟨parse_index_post hgs, default_invariant, parse_index_post hcs2⟩


theorem parseOperandsLoop_le : ∀ (fuel : Nat) (s : Stream) (acc : List Number),
    acc.length < 48 → ∀ res, parseOperandsLoop fuel s acc = .ok res → res.length ≤ 48
  | 0, s, acc => by
    intro hlt res h
    rw [parseOperandsLoop] at h
    cases h
  | fuel + 1, s, acc => by
    intro hlt res h
    rw [parseOperandsLoop] at h
    split at h
    · simp only [Except.ok.injEq] at h
      rw [← h]
      omega
    · obtain ⟨⟨b, s1⟩, _, h⟩ := exbind_ok h
      dsimp only at h
      split at h
      · simp only [Except.ok.injEq] at h
        rw [← h]
        omega
      · obtain ⟨⟨num, s2⟩, _, h⟩ := exbind_ok h
        dsimp only at h
        split at h
        · next hge =>
          simp only [Except.ok.injEq] at h
          rw [← h]
          simp only [List.length_append, List.length_cons, List.length_nil]
          omega
        · next hlt2 =>
          refine parseOperandsLoop_le fuel s2 (acc ++ [num]) ?_ res h
          simp only [List.length_append, List.length_cons, List.length_nil] at hlt2 ⊢
          omega

theorem parse_operands_le (fuel : Nat) (p p' : DictionaryParser)
    (h : DictionaryParser.parse_operands fuel p = .ok p') :
    p'.operands.length ≤ 48 := by
  unfold DictionaryParser.parse_operands at h
  obtain ⟨res, hres, h⟩ := exbind_ok h
  simp only [Except.ok.injEq] at h
  rw [← h]
  exact parseOperandsLoop_le fuel _ [] (by simp) res hres

theorem roundtrip_small (v : Int) (ha1 : -107 ≤ v) (ha2 : v ≤ 107) :
    decodeNumber (encodeIntShortest v) = .ok (.Integer v, ⟨[], 0⟩) := by
  have he : encodeIntShortest v = [(v + 139).toNat] := by
    unfold encodeIntShortest
    rw [if_pos ⟨ha1, ha2⟩]
  rw [he]
  unfold decodeNumber parse_number
  dsimp only
  rw [if_neg (by omega), if_neg (by omega), if_neg (by omega),
      if_pos (by constructor <;> omega)]
  simp only [Except.ok.injEq, Prod.mk.injEq, Number.Integer.injEq]
  exact ⟨by omega, trivial⟩

theorem exbind_okk {α β : Type} (a : α) (f : α → Except Err β) :
    ((Except.ok a : Except Err α) >>= f) = f a := rfl

theorem readU8_ok {s : Stream} (h : s.offset < s.data.length) :
    s.readU8 = .ok (s.data.getD s.offset 0 % 256, ⟨s.data, s.offset + 1⟩) := by
  unfold Stream.readU8
  rw [if_pos h]

theorem roundtrip_two_pos (v : Int) (hb1 : 108 ≤ v) (hb2 : v ≤ 1131) :
    decodeNumber (encodeIntShortest v) =
      .ok (.Integer v, ⟨[(v - 108).toNat % 256], 1⟩) := by
  have he : encodeIntShortest v = [(v - 108).toNat / 256 + 247, (v - 108).toNat % 256] := by
    unfold encodeIntShortest
    rw [if_neg (by omega), if_pos ⟨hb1, hb2⟩]
  rw [he]
  unfold decodeNumber parse_number
  dsimp only
  rw [if_neg (by omega), if_neg (by omega), if_neg (by omega), if_neg (by omega),
      if_pos (by constructor <;> omega)]
  rw [readU8_ok (by simp), exbind_okk]
  simp only [List.getD, List.get?, Option.getD_some]
  simp only [Except.ok.injEq, Prod.mk.injEq, Number.Integer.injEq]
  exact ⟨by omega, trivial⟩

theorem roundtrip_two_neg (v : Int) (hb1 : -1131 ≤ v) (hb2 : v ≤ -108) :
    decodeNumber (encodeIntShortest v) =
      .ok (.Integer v, ⟨[(-v - 108).toNat % 256], 1⟩) := by
  have he : encodeIntShortest v = [(-v - 108).toNat / 256 + 251, (-v - 108).toNat % 256] := by
    unfold encodeIntShortest
    rw [if_neg (by omega), if_neg (by omega), if_pos ⟨hb1, hb2⟩]
  rw [he]
  unfold decodeNumber parse_number
  dsimp only
  rw [if_neg (by omega), if_neg (by omega), if_neg (by omega), if_neg (by omega),
      if_neg (by omega), if_pos (by constructor <;> omega)]
  rw [readU8_ok (by simp), exbind_okk]
  simp only [List.getD, List.get?, Option.getD_some]
  simp only [Except.ok.injEq, Prod.mk.injEq, Number.Integer.injEq]
  exact ⟨by omega, trivial⟩

theorem roundtrip_short (v : Int) (hb1 : 1132 ≤ v) (hb2 : v ≤ 32767) :
    decodeNumber (encodeIntShortest v) =
      .ok (.Integer v, ⟨[(v % 65536).toNat / 256, (v % 65536).toNat % 256], 2⟩) := by
  have he : encodeIntShortest v =
      [28, (v % 65536).toNat / 256, (v % 65536).toNat % 256] := by
    unfold encodeIntShortest
    rw [if_neg (by omega), if_neg (by omega), if_neg (by omega)]
  rw [he]
  unfold decodeNumber parse_number
  dsimp only
  rw [if_pos rfl]
  unfold Stream.readU16
  rw [readU8_ok (by simp), exbind_okk]
  dsimp only
  rw [readU8_ok (by simp), exbind_okk]
  dsimp only
  rw [exbind_okk]
  dsimp only
  simp only [List.getD, List.get?, Option.getD_some, Except.ok.injEq, Prod.mk.injEq,
    Number.Integer.injEq, Stream.mk.injEq]
  have hm : v % 65536 = v := by omega
  refine ⟨by rw [hm]; omega, by norm_num⟩


theorem parse_inv (fuel : Nat) (md : Metadata) (glyph_id : Nat) :
    InvOK initState (parse_char_string fuel md glyph_id).1 := by
  unfold parse_char_string
  cases hg : md.char_strings.get glyph_id with
  | none =>
    dsimp only
    exact ⟨by decide, by decide, by decide, builderEvolves_refl _⟩
  | some data =>
    dsimp only
    have h := inner_inv fuel md data 0 0 initState 0 0
      (by decide) (by decide) (by decide) (by decide)
    cases hr : parseCharStringInner fuel md data 0 0 initState 0 0 with
    | mk stR res =>
      rw [hr] at h
      cases res with
      | error e => exact h
      | ok xy => exact h


/-- C1: executing `callsubr` (op 10) or `callgsubr` (op 29) with recursion
depth already at 10 fails with `NestingLimitReached` before entering the
subroutine, and over any whole render of any glyph the deepest frame ever
executed (the ghost `maxDepth` record) stays at or below 10. -/
theorem claim1_nesting_limit :
    (∀ (fuel : Nat) (md : Metadata) (cs : List Nat) (x y : ℚ)
        (st : CharStringState) (depth pos : Nat),
      pos < cs.length →
      (cs.getD pos 0 % 256 = 10 ∨ cs.getD pos 0 % 256 = 29) →
      st.stack.len ≠ 0 → depth = 10 →
      parseCharStringInner (fuel + 1) md cs x y st depth pos =
        ({ st with maxDepth := max st.maxDepth depth }, .error (.CFF .NestingLimitReached)))
    ∧
    (∀ (fuel : Nat) (md : Metadata) (glyph_id : Nat),
      ((parse_char_string fuel md glyph_id).1).maxDepth ≤ 10) := by
  constructor
  · intro fuel md cs x y st depth pos hpos hop hlen hd
    rw [inner_succ, csStep_call_limit md cs x y
        { st with maxDepth := max st.maxDepth depth } depth pos hpos hop hlen (hd.trans rfl)]
  · intro fuel md glyph_id
    exact (parse_inv fuel md glyph_id).2.2.1

theorem claim1_witness :
    parseCharStringInner 5 md6 [10] 0 0 st1 10 0 =
      ({ st1 with maxDepth := max st1.maxDepth 10 }, .error (.CFF .NestingLimitReached)) ∧
    ((parse_char_string 20 md6 0).1).maxDepth ≤ 10 :=
  ⟨claim1_nesting_limit.1 4 md6 [10] 0 0 st1 10 0 (by norm_num) (Or.inl rfl)
      (by decide) rfl,
   claim1_nesting_limit.2 20 md6 0⟩

/-- C2: a push onto an operand stack already holding 48 values returns
`ArgumentsStackLimitReached` and leaves the stack unchanged, and throughout
any whole render the stack never exceeds 48 values — finally and at every
instant, via the ghost high-water mark. -/
theorem claim2_stack_limit :
    (∀ (s : ArgumentsStack) (n : ℚ), s.data.length = 48 →
      ArgumentsStack.push s n = (s, some CFFError.ArgumentsStackLimitReached))
    ∧
    (∀ (fuel : Nat) (md : Metadata) (glyph_id : Nat),
      ((parse_char_string fuel md glyph_id).1).stack.data.length ≤ 48 ∧
      ((parse_char_string fuel md glyph_id).1).stack.highWater ≤ 48) := by
  constructor
  · intro s n h
    unfold ArgumentsStack.push
    rw [if_pos (show s.data.length = MAX_ARGUMENTS_STACK_LEN from h)]
  · intro fuel md glyph_id
    exact ⟨(parse_inv fuel md glyph_id).1, (parse_inv fuel md glyph_id).2.1⟩

theorem claim2_witness :
    ArgumentsStack.push ⟨List.replicate 48 0, 48⟩ 1 =
      (⟨List.replicate 48 0, 48⟩, some CFFError.ArgumentsStackLimitReached) ∧
    ((parse_char_string 20 md6 0).1).stack.data.length ≤ 48 :=
  ⟨claim2_stack_limit.1 ⟨List.replicate 48 0, 48⟩ 1 (by decide),
   (claim2_stack_limit.2 20 md6 0).1⟩

/-- C3 counterexample: `parse_metadata` accepts the 24-byte table `exBytes`
whose CharStrings INDEX stores the offset array `[1, 5, 2]`, which is not
monotonically non-decreasing — so the claimed invariant does not hold of
every successful parse. -/
theorem claim3_counterexample :
    parse_metadata 40 exBytes = .ok exMd ∧
    ¬ offsetsMonotone exMd.char_strings.offsets ∧
    ¬ indexInvariant exMd.char_strings :=
  ⟨by decide, by decide, fun h => (by decide : ¬ offsetsMonotone exMd.char_strings.offsets) h.2.1⟩

/-- C3 (amended): for any input byte slice, `parse_metadata` returns either
a structured error or metadata whose three INDEX views each satisfy
`count ≤ 0xFFFE` and last-offset-within-slice; monotonicity of the stored
offsets is not validated. -/
theorem claim3_amended (fuel : Nat) (data : List Nat) (md : Metadata)
    (h : parse_metadata fuel data = .ok md) :
    indexInvariantNoMono md.global_subrs ∧ indexInvariantNoMono md.local_subrs ∧
      indexInvariantNoMono md.char_strings :=
  parse_metadata_post h

theorem claim3_witness :
    indexInvariantNoMono exMd.global_subrs ∧ indexInvariantNoMono exMd.local_subrs ∧
      indexInvariantNoMono exMd.char_strings :=
  claim3_amended 40 exBytes exMd (by decide)

set_option maxRecDepth 10000 in
/-- C5 counterexample: `endchar` executing with the non-empty operand stack
`[5]` and `width_parsed = true` does not clear the stack — the render
finishes without error with the value still on the stack. -/
theorem claim5_counterexample :
    (parseCharStringInner 2 md6 [14] 0 0 st5 0 0).1.stack.data = [5] ∧
    (parseCharStringInner 2 md6 [14] 0 0 st5 0 0).2 = .ok (0, 0) ∧
    st5.stack.data = [5] ∧ st5.width_parsed = true := by
  refine ⟨by decide, by decide, rfl, rfl⟩

/-- C5 (amended): when `endchar` (op 14) executes with `width_parsed`
already true, the stack-clearing branch is skipped — the operand stack is
left untouched; the only state change is closing the path when a `moveto`
has already opened one (plus the ghost depth record), and no error is
raised. -/
theorem claim5_amended (fuel : Nat) (md : Metadata) (cs : List Nat) (x y : ℚ)
    (st : CharStringState) (depth pos : Nat)
    (hpos : pos < cs.length) (hop : cs.getD pos 0 % 256 = 14)
    (hw : st.width_parsed = true) :
    parseCharStringInner (fuel + 1) md cs x y st depth pos =
      parseCharStringInner fuel md cs x y
        (if st.is_first_move_to = false then
          { st with maxDepth := max st.maxDepth depth, is_first_move_to := true,
                    builder := st.builder.close }
         else { st with maxDepth := max st.maxDepth depth })
        depth (pos + 1) := by
  rw [inner_succ, csStep_endchar md cs x y _ depth pos hpos hop]
  dsimp only
  rw [if_neg (show ¬(st.stack.len ≠ 0 ∧ st.width_parsed = false) by simp [hw])]

theorem claim5_witness :
    parseCharStringInner 2 md6 [14] 0 0 st5 0 0 =
      parseCharStringInner 1 md6 [14] 0 0
        (if st5.is_first_move_to = false then
          { st5 with maxDepth := max st5.maxDepth 0, is_first_move_to := true,
                     builder := st5.builder.close }
         else { st5 with maxDepth := max st5.maxDepth 0 })
        0 1 :=
  claim5_amended 1 md6 [14] 0 0 st5 0 0 (by norm_num) rfl rfl

set_option maxRecDepth 10000 in
/-- C7 counterexample: a DICT stream holding 49 encoded operands before the
operator byte is not a hard error for `parse_operands` — it succeeds,
silently materializing only the first 48 operands. -/
theorem claim7_counterexample :
    DictionaryParser.parse_operands 60 (DictionaryParser.new dict49) =
      .ok { data := dict49, offset := 0, operands_offset := 0,
            operands := List.replicate 48 (Number.Integer 0) } := by
  decide

set_option maxRecDepth 10000 in
/-- C7 (amended): materializing operands never yields more than 48 of them
— excess operands are silently dropped rather than being a hard error —
and scanning past a DICT entry with more than 48 operands
(`parse_next`, which never materializes) also succeeds. -/
theorem claim7_amended :
    (∀ (fuel : Nat) (p p' : DictionaryParser),
       DictionaryParser.parse_operands fuel p = .ok p' → p'.operands.length ≤ 48)
    ∧ DictionaryParser.parse_next 60 (DictionaryParser.new dict49) =
        some (0, { data := dict49, offset := 50, operands_offset := 0,
                   operands := [] }) := by
  exact ⟨parse_operands_le, by decide⟩

set_option maxRecDepth 10000 in
theorem claim7_witness :
    ({ data := dict49, offset := 0, operands_offset := 0,
       operands := List.replicate 48 (Number.Integer 0) } :
        DictionaryParser).operands.length ≤ 48 :=
  claim7_amended.1 60 (DictionaryParser.new dict49) _ (by decide)

/-- C8: every integer in −1131..32767 encoded by the spec's shortest rule
(single byte biased for −107..107, two bytes for ±108..±1131, operator 28
shortint otherwise) decodes through `parse_number` to the original
integer. -/
theorem claim8_roundtrip (v : Int) (h1 : -1131 ≤ v) (h2 : v ≤ 32767) :
    ∃ s, decodeNumber (encodeIntShortest v) = .ok (Number.Integer v, s) := by
  by_cases hA : -107 ≤ v ∧ v ≤ 107
  · exact ⟨_, roundtrip_small v hA.1 hA.2⟩
  · by_cases hB : 108 ≤ v
    · by_cases hC : v ≤ 1131
      · exact ⟨_, roundtrip_two_pos v hB hC⟩
      · exact ⟨_, roundtrip_short v (by omega) h2⟩
    · exact ⟨_, roundtrip_two_neg v h1 (by omega)⟩

theorem claim8_witness :
    ∃ s, decodeNumber (encodeIntShortest 2000) = .ok (Number.Integer 2000, s) :=
  claim8_roundtrip 2000 (by norm_num) (by norm_num)

/-- C9: an unresolvable biased subroutine index — one the local or global
subrs INDEX cannot produce a slice for — fails the render with `NoGlyph`,
the same error value returned when the glyph id itself is missing from
CharStrings, rather than a CFF-specific error. -/
theorem claim9_noglyph :
    (∀ (fuel : Nat) (md : Metadata) (cs : List Nat) (x y : ℚ)
        (st : CharStringState) (depth pos : Nat),
      pos < cs.length → cs.getD pos 0 % 256 = 10 → st.stack.len ≠ 0 → depth ≠ 10 →
      md.local_subrs.get (biasedIndex (st.stack.pop).1
        (calc_subroutine_bias md.local_subrs.len)) = none →
      parseCharStringInner (fuel + 1) md cs x y st depth pos =
        ({ st with maxDepth := max st.maxDepth depth, stack := (st.stack.pop).2 },
          .error .NoGlyph))
    ∧
    (∀ (fuel : Nat) (md : Metadata) (cs : List Nat) (x y : ℚ)
        (st : CharStringState) (depth pos : Nat),
      pos < cs.length → cs.getD pos 0 % 256 = 29 → st.stack.len ≠ 0 → depth ≠ 10 →
      md.global_subrs.get (biasedIndex (st.stack.pop).1
        (calc_subroutine_bias md.global_subrs.len)) = none →
      parseCharStringInner (fuel + 1) md cs x y st depth pos =
        ({ st with maxDepth := max st.maxDepth depth, stack := (st.stack.pop).2 },
          .error .NoGlyph))
    ∧
    (∀ (fuel : Nat) (md : Metadata) (glyph_id : Nat),
      md.char_strings.get glyph_id = none →
      parse_char_string fuel md glyph_id = (initState, .error .NoGlyph)) := by
  refine ⟨?_, ?_, ?_⟩
  · intro fuel md cs x y st depth pos hpos hop hlen hd hget
    rw [inner_succ, csStep_call_local_none md cs x y
        { st with maxDepth := max st.maxDepth depth } depth pos hpos hop hlen hd hget]
  · intro fuel md cs x y st depth pos hpos hop hlen hd hget
    rw [inner_succ, csStep_call_global_none md cs x y
        { st with maxDepth := max st.maxDepth depth } depth pos hpos hop hlen hd hget]
  · intro fuel md glyph_id hg
    unfold parse_char_string
    rw [hg]

theorem claim9_witness :
    parseCharStringInner 5 md6 [10] 0 0 st1 0 0 =
      ({ st1 with maxDepth := max st1.maxDepth 0, stack := (st1.stack.pop).2 },
        .error .NoGlyph) ∧
    parseCharStringInner 5 md6 [29] 0 0 st1 0 0 =
      ({ st1 with maxDepth := max st1.maxDepth 0, stack := (st1.stack.pop).2 },
        .error .NoGlyph) ∧
    parse_char_string 20 md6 1 = (initState, .error .NoGlyph) :=
  ⟨claim9_noglyph.1 4 md6 [10] 0 0 st1 0 0 (by norm_num) rfl (by decide)
      (by decide) (by decide),
   claim9_noglyph.2.1 4 md6 [29] 0 0 st1 0 0 (by norm_num) rfl (by decide)
      (by decide) (by decide),
   claim9_noglyph.2.2 20 md6 1 (by decide)⟩

/-- C4: a `hintmask`/`cntrmask` (op 19/20) counts the residual operand
stack as extra vstem pairs — consuming a leading width exactly when the
stack length is odd and no width has been parsed yet — clears the stack,
adds the pair count to `stems_len`, and skips `⌈stems_len/8⌉` mask bytes
from the instruction stream (the division conjuncts state that
`(n + 7) / 8` is exactly the ceiling, and that one stem skips one byte). -/
theorem claim4_hintmask (fuel : Nat) (md : Metadata) (cs : List Nat) (x y : ℚ)
    (st : CharStringState) (depth pos : Nat)
    (hpos : pos < cs.length)
    (hop : cs.getD pos 0 % 256 = 19 ∨ cs.getD pos 0 % 256 = 20)
    (hnw : st.stems_len + hintmaskPairs st + 7 < 4294967296) :
    parseCharStringInner (fuel + 1) md cs x y st depth pos =
      parseCharStringInner fuel md cs x y
        { st with maxDepth := max st.maxDepth depth,
                  stack := st.stack.clear,
                  width_parsed := st.width_parsed ||
                    decide (st.stack.len % 2 = 1 ∧ st.width_parsed = false),
                  stems_len := st.stems_len + hintmaskPairs st }
        depth (pos + 1 + (st.stems_len + hintmaskPairs st + 7) / 8) ∧
    (st.stems_len + hintmaskPairs st ≤ 8 * ((st.stems_len + hintmaskPairs st + 7) / 8) ∧
      8 * ((st.stems_len + hintmaskPairs st + 7) / 8) < st.stems_len + hintmaskPairs st + 8) ∧
    (st.stems_len + hintmaskPairs st = 1 → (st.stems_len + hintmaskPairs st + 7) / 8 = 1) := by
  refine ⟨?_, ⟨by omega, by omega⟩, by omega⟩
  rw [inner_succ, csStep_hintmask md cs x y
      { st with maxDepth := max st.maxDepth depth } depth pos hpos hop]
  dsimp only
  rw [show hintmaskPairs { st with maxDepth := max st.maxDepth depth } = hintmaskPairs st
        from rfl]
  rw [Nat.mod_eq_of_lt (show st.stems_len + hintmaskPairs st < 4294967296 by omega),
      Nat.mod_eq_of_lt (show st.stems_len + hintmaskPairs st + 7 < 4294967296 from hnw)]

theorem claim4_witness :
    parseCharStringInner 4 md6 [19, 0] 0 0 stH 0 0 =
      parseCharStringInner 3 md6 [19, 0] 0 0
        { stH with maxDepth := max stH.maxDepth 0,
                   stack := stH.stack.clear,
                   width_parsed := stH.width_parsed ||
                     decide (stH.stack.len % 2 = 1 ∧ stH.width_parsed = false),
                   stems_len := stH.stems_len + hintmaskPairs stH }
        0 (0 + 1 + (stH.stems_len + hintmaskPairs stH + 7) / 8) ∧
    (stH.stems_len + hintmaskPairs stH ≤ 8 * ((stH.stems_len + hintmaskPairs stH + 7) / 8) ∧
      8 * ((stH.stems_len + hintmaskPairs stH + 7) / 8) < stH.stems_len + hintmaskPairs stH + 8) ∧
    (stH.stems_len + hintmaskPairs stH = 1 → (stH.stems_len + hintmaskPairs stH + 7) / 8 = 1) :=
  claim4_hintmask 3 md6 [19, 0] 0 0 stH 0 0 (by norm_num) (Or.inl rfl) (by decide)

/-- C6: a successful render that never passed a point to the sink — no
emitted command carries coordinates — returns the builder's bounding box
still at the sentinel extremes, and the `Rect` handed back is the `i16`
cast of those unchanged extremes. -/
theorem claim6_empty_bbox (fuel : Nat) (md : Metadata) (glyph_id : Nat)
    (st : CharStringState) (r : Rect)
    (h : parse_char_string fuel md glyph_id = (st, .ok r))
    (hq : st.builder.cmds.filter DrawCmd.isPoint = []) :
    st.builder.bbox = RectF.initial ∧ r = rectOfBBox RectF.initial := by
  unfold parse_char_string at h
  cases hg : md.char_strings.get glyph_id with
  | none =>
    rw [hg] at h
    simp at h
  | some data =>
    rw [hg] at h
    dsimp only at h
    have hi := inner_inv fuel md data 0 0 initState 0 0
      (by decide) (by decide) (by decide) (by decide)
    cases hr : parseCharStringInner fuel md data 0 0 initState 0 0 with
    | mk stR res =>
      rw [hr] at h hi
      cases res with
      | error e => simp at h
      | ok xy =>
        dsimp only at h
        simp only [Prod.mk.injEq, Except.ok.injEq] at h
        obtain ⟨hst, hrr⟩ := h
        obtain ⟨t, ht, hb⟩ := hi.2.2.2
        subst hst
        have hcmds : initState.builder.cmds = [] := rfl
        rw [hcmds, List.nil_append] at ht
        have hbb : stR.builder.bbox = initState.builder.bbox := by
          apply hb
          rw [← ht]
          exact hq
        refine ⟨hbb.trans rfl, ?_⟩
        rw [← hrr, hbb]
        rfl

theorem claim6_witness :
    initState.builder.bbox = RectF.initial ∧
      rectOfBBox RectF.initial = rectOfBBox RectF.initial := by
  have hcs : parseCharStringInner 20 md6 [14] 0 0 initState 0 0 =
      (initState, .ok ((0 : ℚ), (0 : ℚ))) := by
    rw [inner_succ, csStep_endchar md6 [14] 0 0
        { initState with maxDepth := max initState.maxDepth 0 } 0 0 (by norm_num) rfl]
    dsimp only
    rw [if_neg (show ¬(initState.stack.len ≠ 0 ∧ initState.width_parsed = false) by decide),
        if_neg (show ¬(initState.is_first_move_to = false) by decide)]
    rw [inner_succ, csStep_atEnd md6 [14] 0 0 _ 0 1 (by norm_num)]
    rfl
  have h : parse_char_string 20 md6 0 = (initState, .ok (rectOfBBox RectF.initial)) := by
    unfold parse_char_string
    rw [(by decide : md6.char_strings.get 0 = some [14])]
    dsimp only
    rw [hcs]
    rfl
  exact claim6_empty_bbox 20 md6 0 initState (rectOfBBox RectF.initial) h rfl

/-- C10: `endchar` (op 14) does not terminate interpretation — dispatch
continues at the next byte, and the state it hands on always has
`is_first_move_to` reset to true, so a following `rmoveto` opens a new
path with a bare `move_to` appended to the commands without a `close`;
a frame ends only at the end of the byte stream or at `return` (op 11). -/
theorem claim10_endchar :
    (∀ (fuel : Nat) (md : Metadata) (cs : List Nat) (x y : ℚ)
        (st : CharStringState) (depth pos : Nat),
      pos < cs.length → cs.getD pos 0 % 256 = 14 →
      parseCharStringInner (fuel + 1) md cs x y st depth pos =
        parseCharStringInner fuel md cs x y (endcharState st depth) depth (pos + 1))
    ∧ (∀ (st : CharStringState) (depth : Nat),
        (endcharState st depth).is_first_move_to = true)
    ∧ (∀ (fuel : Nat) (md : Metadata) (cs : List Nat) (x y : ℚ)
        (st : CharStringState) (depth pos : Nat),
      pos < cs.length → cs.getD pos 0 % 256 = 11 →
      parseCharStringInner (fuel + 1) md cs x y st depth pos =
        ({ st with maxDepth := max st.maxDepth depth }, .ok (x, y)))
    ∧ (∀ (fuel : Nat) (md : Metadata) (cs : List Nat) (x y : ℚ)
        (st : CharStringState) (depth pos : Nat),
      cs.length ≤ pos →
      parseCharStringInner (fuel + 1) md cs x y st depth pos =
        ({ st with maxDepth := max st.maxDepth depth }, .ok (x, y)))
    ∧ (∀ (fuel : Nat) (md : Metadata) (cs : List Nat) (x y : ℚ)
        (st : CharStringState) (depth pos : Nat),
      pos < cs.length → cs.getD pos 0 % 256 = 21 →
      st.stack.len = 2 → st.is_first_move_to = true →
      parseCharStringInner (fuel + 1) md cs x y st depth pos =
        parseCharStringInner fuel md cs (x + st.stack.atI 0) (y + st.stack.atI 1)
          { st with maxDepth := max st.maxDepth depth, is_first_move_to := false,
                    builder := st.builder.move_to (x + st.stack.atI 0) (y + st.stack.atI 1),
                    stack := st.stack.clear }
          depth (pos + 1))
    ∧ (∀ (b : Builder) (x y : ℚ),
      (Builder.move_to b x y).cmds = b.cmds ++ [DrawCmd.moveTo x y]) := by
  refine ⟨?_, ?_, ?_, ?_, ?_, ?_⟩
  · intro fuel md cs x y st depth pos hpos hop
    rw [inner_succ, csStep_endchar md cs x y
        { st with maxDepth := max st.maxDepth depth } depth pos hpos hop]
    rfl
  · intro st depth
    unfold endcharState
    dsimp only
    split
    all_goals
      split
      · rfl
      · next h =>
        simp only [Bool.not_eq_false] at h
        exact h
  · intro fuel md cs x y st depth pos hpos hop
    rw [inner_succ, csStep_return md cs x y
        { st with maxDepth := max st.maxDepth depth } depth pos hpos hop]
  · intro fuel md cs x y st depth pos hpos
    rw [inner_succ, csStep_atEnd md cs x y
        { st with maxDepth := max st.maxDepth depth } depth pos hpos]
  · intro fuel md cs x y st depth pos hpos hop hL hFirst
    rw [inner_succ, csStep_rmoveto_first md cs x y
        { st with maxDepth := max st.maxDepth depth } depth pos hpos hop hL hFirst]
  · intro b x y
    rfl

theorem claim10_witness :
    parseCharStringInner 3 md6 [14] 0 0 st5 0 0 =
      parseCharStringInner 2 md6 [14] 0 0 (endcharState st5 0) 0 1 ∧
    (endcharState st5 0).is_first_move_to = true ∧
    parseCharStringInner 3 md6 [11] 0 0 st5 0 0 =
      ({ st5 with maxDepth := max st5.maxDepth 0 }, .ok (0, 0)) ∧
    parseCharStringInner 3 md6 [] 0 0 st5 0 0 =
      ({ st5 with maxDepth := max st5.maxDepth 0 }, .ok (0, 0)) ∧
    (Builder.move_to { cmds := [], bbox := RectF.initial } 1 2).cmds =
      [] ++ [DrawCmd.moveTo 1 2] :=
  ⟨claim10_endchar.1 2 md6 [14] 0 0 st5 0 0 (by norm_num) rfl,
   claim10_endchar.2.1 st5 0,
   claim10_endchar.2.2.1 2 md6 [11] 0 0 st5 0 0 (by norm_num) rfl,
   claim10_endchar.2.2.2.1 2 md6 [] 0 0 st5 0 0 (by norm_num),
   claim10_endchar.2.2.2.2.2 { cmds := [], bbox := RectF.initial } 1 2⟩

end Cff
